import Mathlib

set_option maxRecDepth 4096

/-!
Verification of the node-fast client engine (lib/fast_client.js) and the
protocol encoder facts stated in the specification.

The development shallowly embeds the client request tracker as a pure state
machine: the mutable `FastClient` object becomes `ClientState`, inbound
decoded messages, user actions and transport signals become an `Action`
type, and each JavaScript method becomes a Lean function from state to
state paired with the list of events the client emits on request streams
(`data`, `end`, `error`) and at the engine level (`error`).

`VError` objects (the verror library) are embedded as `VErr`: a chain of
layers, each carrying a name, the fully rendered message and an info list.
`new VError(opts, msg)` renders its message as `msg ++ ": " ++ cause.message`
when a cause is present, and `VError.info` merges the info lists from the
innermost cause outward, later (outer) bindings overriding earlier ones.

`lib/fast_protocol.js` is not part of the sources at hand (only its tests
and callers are), so the few facts needed from it (the two CRC-16 variants,
the message-id ceiling `FP_MSGID_MAX`, the JSON serialization of payloads
and the header layout) are modelled from the specification text; each such
definition is marked `Modelled from the spec:` in its doc comment.
-/

/-- Values carried in a VError info block: the client stores numbers
(`rpcMsgid`), strings (`rpcMethod`), the server-supplied context object and
the `ase_errors` list.  Other JSON shapes do not occur in the claims. -/
inductive InfoVal : Type where
  | num (n : Nat)
  | str (s : String)
  | ctx (kvs : List (String × String))
  | errs (names : List String)
  deriving DecidableEq, BEq

/-- One layer of a VError cause chain: its `name`, its fully rendered
`message` (including the `": cause"` suffixes) and its own info bindings. -/
structure ErrLayer : Type where
  name : String
  message : String
  info : List (String × InfoVal)
  deriving DecidableEq, BEq

/-- An embedded VError: the outermost layer plus the chain of causes,
outermost cause first. -/
structure VErr : Type where
  top : ErrLayer
  causes : List ErrLayer
  deriving DecidableEq, BEq

def VErr.name (e : VErr) : String := e.top.name

def VErr.message (e : VErr) : String := e.top.message

def VErr.chain (e : VErr) : List ErrLayer := e.top :: e.causes

def VErr.cause : VErr → Option VErr
  | ⟨_, []⟩ => none
  | ⟨_, c :: cs⟩ => some ⟨c, cs⟩

/-- Behavior of `new VError({name, cause, info}, shortmsg)`: the rendered
message appends `": "` and the cause's message when a cause is given, and
the cause's layers become the tail of the chain. -/
def mkVError (name : String) (cause : Option VErr) (info : List (String × InfoVal))
    (shortmsg : String) : VErr :=
  match cause with
  | none => ⟨⟨name, shortmsg, info⟩, []⟩
  | some c => ⟨⟨name, shortmsg ++ ": " ++ c.message, info⟩, c.chain⟩

/-- Merged info bindings as computed by `VError.info`: innermost cause
first, so that outer layers override inner ones on lookup from the end. -/
def VErr.infoAll (e : VErr) : List (String × InfoVal) :=
  e.chain.reverse.foldl (fun acc l => acc ++ l.info) []

/-- Lookup in the merged info block; the last (outermost) binding wins. -/
def infoGet (k : String) (e : VErr) : Option InfoVal :=
  e.infoAll.reverse.lookup k

/-- `c` is a suffix of `l` (as layer lists). -/
def suffixB (c : List ErrLayer) : List ErrLayer → Bool
  | [] => decide (c = [])
  | x :: rest => decide (c = x :: rest) || suffixB c rest

/-- `c` is `e` itself or appears in `e`'s cause chain. -/
def VErr.hasCause (e c : VErr) : Bool :=
  suffixB c.chain e.chain

/-! JSON payload items.  The elements of `data.d` are arbitrary JSON
values which the client routes opaquely to the request stream; they are
embedded as strings (every payload item appearing in the claims is a
string). -/

/-- Modelled from the spec: the JSON serialization of an array of strings
(`JSON.stringify`), as the encoder applies it to a `data` payload.  The
strings appearing in the reference vectors contain no characters needing
escapes, so plain quoting suffices. -/
def jsonStringifyArr (elts : List String) : String :=
  "[" ++ String.intercalate "," (elts.map (fun s => "\"" ++ s ++ "\"")) ++ "]"

/-- Modelled from the spec: the payload on the wire is the UTF-8 encoding
of the JSON text.  The reference payloads are pure ASCII, where UTF-8
bytes coincide with code points. -/
def asciiBytes (s : String) : List Nat :=
  s.data.map Char.toNat

/-! The two CRC-16 variants (modelled from the spec: `lib/fast_protocol.js`
and its `crc` dependency are not among the sources; the spec pins them via
the reference vector `"[\"hello\",\"world\"]"` ↦ 10980 (OLD) / 7500 (NEW)). -/

/-- One bit step of the conformant CRC-16 (reflected polynomial 0xA001). -/
def crc16NewBit (crc : Nat) : Nat :=
  if crc % 2 = 1 then Nat.xor (crc / 2) 0xA001 else crc / 2

/-- Modelled from the spec: the conformant CRC-16 (`NEW` mode), the
standard reflected CRC-16 with polynomial 0xA001 and zero initial value,
as computed by modern versions of the `crc` package. -/
def crc16_new (bytes : List Nat) : Nat :=
  bytes.foldl
    (fun crc b =>
      crc16NewBit (crc16NewBit (crc16NewBit (crc16NewBit
        (crc16NewBit (crc16NewBit (crc16NewBit (crc16NewBit (Nat.xor crc b)))))))))
    0

/-- One bit step of the legacy CRC-16 (MSB-first polynomial 0x1021). -/
def crc16OldBit (crc : Nat) : Nat :=
  if crc / 0x8000 % 2 = 1 then Nat.xor (crc * 2 % 0x10000) 0x1021
  else crc * 2 % 0x10000

/-- Modelled from the spec: the historically buggy CRC-16 (`OLD` mode).
Old versions of the `crc` package computed the CCITT variant (MSB-first
polynomial 0x1021, zero initial value) under the name `crc16`. -/
def crc16_old (bytes : List Nat) : Nat :=
  bytes.foldl
    (fun crc b =>
      crc16OldBit (crc16OldBit (crc16OldBit (crc16OldBit
        (crc16OldBit (crc16OldBit (crc16OldBit (crc16OldBit (Nat.xor crc (b * 256 % 0x10000))))))))))
    0

/-- CRC compatibility modes; modelled from the spec: `OLD` (legacy buggy),
`NEW` (conformant), `OLD_NEW` (emit OLD, accept either on decode). -/
inductive CrcMode : Type where
  | old
  | new
  | oldNew
  deriving DecidableEq, BEq

/-- Modelled from the spec: the checksum the encoder computes for a
payload in a given mode; in `OLD_NEW` mode the encoder emits the OLD
checksum for compatibility. -/
def fastMessageEncodeCrc (mode : CrcMode) (payload : List Nat) : Nat :=
  match mode with
  | .old => crc16_old payload
  | .new => crc16_new payload
  | .oldNew => crc16_old payload

/-- Big-endian 32-bit encoding of a value (upper bits zero for CRC-16). -/
def be32 (n : Nat) : List Nat :=
  [n / 2 ^ 24 % 256, n / 2 ^ 16 % 256, n / 2 ^ 8 % 256, n % 256]

/-- Modelled from the spec: the encoder's output frame — the fixed header
(version 1, type 1 = JSON, status, then big-endian msgid at offset 3, CRC
at offset 7 and payload length at offset 11) followed by the UTF-8 JSON
payload at offset 15. -/
def fastMessageEncode (mode : CrcMode) (msgid status : Nat) (data : List String) : List Nat :=
  let payload := asciiBytes (jsonStringifyArr data)
  [1, 1, status] ++ be32 msgid ++ be32 (fastMessageEncodeCrc mode payload) ++
    be32 payload.length ++ payload

/-! Message-id allocation (`FastClient.prototype.allocMessageId`). -/

/-- Modelled from the spec: `FP_MSGID_MAX` from `lib/fast_protocol.js`;
msgids live in `[0, 2^31 - 1]` and the allocator wraps to 1 when the
counter would reach `2^31 - 1`. -/
def FP_MSGID_MAX : Nat := 2147483647

/-- `FastClient.prototype.allocMessageId`: pre-increment the counter, wrap
to 1 at `FP_MSGID_MAX`; returns the issued msgid and the new counter. -/
def allocMessageId (fcMsgid : Nat) : Nat × Nat :=
  let m := fcMsgid + 1
  if FP_MSGID_MAX ≤ m then (1, 1) else (m, m)

/-- Counter value after `n` allocations starting from the initial 0. -/
def msgidAfter : Nat → Nat
  | 0 => 0
  | n + 1 => (allocMessageId (msgidAfter n)).2

/-- The msgid returned by the n-th allocation (n ≥ 1). -/
def nthMsgid (n : Nat) : Nat := (allocMessageId (msgidAfter (n - 1))).1

/-! The decoded message model.  The decoder validates the payload shape
before the client sees a message, so a message is a tagged variant over
its status: DATA and END carry an item list `data.d`, ERROR carries a
`{name, message, info?, context?, ase_errors?}` descriptor. -/

/-- Shape of `data.d` in a decoder-validated ERROR message. -/
structure ErrorDesc : Type where
  name : String
  message : String
  info : List (String × String)
  context : Option (List (String × String))
  aseErrors : Option (List String)
  deriving DecidableEq, BEq

/-- Decoded message body, a tagged variant over the status byte:
`data` = DATA (0x1), `done` = END (0x2), `fail` = ERROR (0x3). -/
inductive MsgBody : Type where
  | data (d : List String)
  | done (d : List String)
  | fail (e : ErrorDesc)
  deriving DecidableEq, BEq

/-- A decoded message as routed by `FastClient.prototype.onMessage`. -/
structure FMessage : Type where
  msgid : Nat
  body : MsgBody
  deriving DecidableEq, BEq

/-- Whether a message body has END status. -/
def isEndMessage : MsgBody → Bool
  | .done _ => true
  | _ => false

/-! The client request entity (`lib/fast_client_request.js` object fields
as used by `lib/fast_client.js`).  `frq_rid` is model bookkeeping: the
identity of the per-request stream object, realized as the serial number
of the request (the value of `fc_nrpc_started` after this request was
issued); stream events are tagged with it. -/

structure FastRpcRequest : Type where
  frq_msgid : Nat
  frq_rid : Nat
  frq_rpcmethod : String
  frq_rpcargs : List String
  frq_aborted : Bool
  frq_error : Option VErr
  frq_done_graceful : Bool
  frq_ndata : Nat
  frq_nignored : Nat
  frq_skip : Bool
  frq_last : Option FMessage
  deriving DecidableEq, BEq

/-- Client state: the fields of a `FastClient` that the claims concern.
`tr_onend_listener` / `tr_onerr_listener` record whether the handlers
installed by `attach()` are still registered on the transport, and
`tr_reading` / `tr_writing` whether the transport is still piped through
the decoder / encoder.  The recent-requests ring buffer and the loggers
are not modelled. -/
structure ClientState : Type where
  fc_msgid : Nat
  fc_pending : List (Nat × FastRpcRequest)
  fc_aborted : List (Nat × FastRpcRequest)
  fc_nrpc_started : Nat
  fc_nrpc_done : Nat
  fc_error : Option VErr
  fc_nerrors : Nat
  fc_detached : Bool
  fc_transport_ended : Bool
  tr_onend_listener : Bool
  tr_onerr_listener : Bool
  tr_reading : Bool
  tr_writing : Bool
  deriving DecidableEq, BEq

/-- State of a freshly constructed `FastClient` (the constructor calls
`attach()`, which pipes the streams and registers both listeners). -/
def clientInit : ClientState :=
  { fc_msgid := 0
    fc_pending := []
    fc_aborted := []
    fc_nrpc_started := 0
    fc_nrpc_done := 0
    fc_error := none
    fc_nerrors := 0
    fc_detached := false
    fc_transport_ended := false
    tr_onend_listener := true
    tr_onerr_listener := true
    tr_reading := true
    tr_writing := true }

/-- Events observable on request streams and at the engine level.  Stream
events are tagged by the stream's identity `rid`. -/
inductive Event : Type where
  | reqData (rid : Nat) (d : String)
  | reqEnd (rid : Nat)
  | reqError (rid : Nat) (e : VErr)
  | clientError (e : VErr)
  deriving DecidableEq, BEq

/-! Association-table helpers for the JavaScript objects `fc_pending` and
`fc_aborted` (keys are msgids). -/

def alookup (k : Nat) : List (Nat × α) → Option α
  | [] => none
  | (k2, v) :: rest => if k2 = k then some v else alookup k rest

def amember (k : Nat) (l : List (Nat × α)) : Bool :=
  (alookup k l).isSome

def aremove (k : Nat) (l : List (Nat × α)) : List (Nat × α) :=
  l.filter (fun p => !(p.1 == k))

def aset (k : Nat) (v : α) (l : List (Nat × α)) : List (Nat × α) :=
  if amember k l then l.map (fun p => if p.1 == k then (k, v) else p)
  else l ++ [(k, v)]

/-! The client operations, translated method by method from
`lib/fast_client.js`.  Each returns the new state and the list of events
delivered to the caller (deferred emissions like the `setImmediate` in
`requestFail` are recorded in program order; deferral only moves them
later, which is immaterial here because nothing is ever emitted for a
request after its terminal is scheduled). -/

/-- `FastClient.prototype.requestIsPending`. -/
def requestIsPending (request : FastRpcRequest) : Bool :=
  !request.frq_done_graceful && request.frq_error.isNone

/-- `FastClient.prototype.requestComplete`: remove from the pending table
and count the request done (the recent-requests ring is not modelled). -/
def requestComplete (s : ClientState) (request : FastRpcRequest) : ClientState :=
  { s with
    fc_pending := aremove request.frq_msgid s.fc_pending
    fc_nrpc_done := s.fc_nrpc_done + 1 }

/-- The error stored by `requestFail`.  Note the translated source: the
stored error's name is `error.name` (the cause's name) and no short
message is supplied, so the rendered message is `": " ++ cause.message`. -/
def requestFailError (request : FastRpcRequest) (error : VErr) : VErr :=
  mkVError error.name (some error)
    [("rpcMsgid", InfoVal.num request.frq_msgid),
     ("rpcMethod", InfoVal.str request.frq_rpcmethod)] ""

/-- `FastClient.prototype.requestFail`.  The request object is shared with
the aborted table (when present there), so the updated request is written
through. -/
def requestFail (s : ClientState) (request : FastRpcRequest) (error : VErr) :
    ClientState × List Event :=
  let failErr := requestFailError request error
  let request2 := { request with frq_error := some failErr }
  let s2 := { s with
    fc_aborted :=
      if amember request.frq_msgid s.fc_aborted then
        aset request.frq_msgid request2 s.fc_aborted
      else s.fc_aborted }
  (requestComplete s2 request2, [Event.reqError request.frq_rid failErr])

/-- The `RequestAbortedError` synthesized by `requestAbort`. -/
def abortError (cause : Option VErr) : VErr :=
  mkVError "RequestAbortedError" cause [] "request aborted"

/-- `FastClient.prototype.requestAbort`: a no-op unless the request is
still pending; otherwise mark it aborted, record it in the aborted table
and fail it with a `RequestAbortedError` wrapping the optional cause. -/
def requestAbort (s : ClientState) (request : FastRpcRequest) (error : Option VErr) :
    ClientState × List Event :=
  if !(requestIsPending request) then (s, [])
  else
    let request2 := { request with frq_aborted := true }
    let s2 := { s with fc_aborted := aset request.frq_msgid request2 s.fc_aborted }
    requestFail s2 request2 (abortError error)

/-- `FastClient.prototype.requestAbortAll` iterates over the keys of
`fc_pending` as of loop entry, looking each up in the current table. -/
def abortList (s : ClientState) (error : VErr) :
    List (Nat × FastRpcRequest) → ClientState × List Event
  | [] => (s, [])
  | kr :: rest =>
    let first :=
      match alookup kr.1 s.fc_pending with
      | some req => requestAbort s req (some error)
      | none => (s, [])
    let next := abortList first.1 error rest
    (next.1, first.2 ++ next.2)

/-- `FastClient.prototype.requestAbortAll`. -/
def requestAbortAll (s : ClientState) (error : VErr) : ClientState × List Event :=
  abortList s error s.fc_pending

/-- `FastClient.prototype.fatalError`: count every fatal error, but only
the first is recorded, emitted at the engine level and fanned out to the
pending requests. -/
def fatalError (s : ClientState) (err : VErr) : ClientState × List Event :=
  let s1 := { s with fc_nerrors := s.fc_nerrors + 1 }
  if s1.fc_error.isSome then (s1, [])
  else
    let s2 := { s1 with fc_error := some err }
    let aborted := requestAbortAll s2 err
    (aborted.1, Event.clientError err :: aborted.2)

/-- `FastClient.prototype.rpc`.  The source asserts that the allocated
msgid is not already pending; an assertion failure halts the process, and
is modelled as a stutter.  When the client is detached or the transport
has ended, the request fails with a `TransportError` instead of being
written to the encoder (the outbound wire is not modelled). -/
def freshRequest (msgid rid : Nat) (method : String) (args : List String) :
    FastRpcRequest :=
  { frq_msgid := msgid
    frq_rid := rid
    frq_rpcmethod := method
    frq_rpcargs := args
    frq_aborted := false
    frq_error := none
    frq_done_graceful := false
    frq_ndata := 0
    frq_nignored := 0
    frq_skip := false
    frq_last := none }

def rpcCall (s : ClientState) (method : String) (args : List String) :
    ClientState × List Event :=
  let alloc := allocMessageId s.fc_msgid
  let msgid := alloc.1
  if amember msgid s.fc_pending then ({ s with fc_msgid := alloc.2 }, [])
  else
    let request := freshRequest msgid (s.fc_nrpc_started + 1) method args
    let s2 := { s with
      fc_msgid := alloc.2
      fc_pending := s.fc_pending ++ [(msgid, request)]
      fc_nrpc_started := s.fc_nrpc_started + 1 }
    if s2.fc_detached || s2.fc_transport_ended then
      requestFail s2 { request with frq_skip := true }
        (mkVError "TransportError" none [] "transport detached")
    else (s2, [])

/-- `FastClient.prototype.onMessage`: route by msgid through the pending
table, then the aborted table; a msgid in neither is a fatal protocol
error.  Translated source for the pending END branch: the request is
completed and the stream ended without pushing the items of `data.d`. -/
def onMessage (s : ClientState) (message : FMessage) : ClientState × List Event :=
  match alookup message.msgid s.fc_pending with
  | some request =>
    let request := { request with frq_last := some message }
    match message.body with
    | .done _d =>
      let request := { request with frq_done_graceful := true }
      (requestComplete s request, [Event.reqEnd request.frq_rid])
    | .data d =>
      let request := { request with frq_ndata := request.frq_ndata + 1 }
      ({ s with fc_pending := aset message.msgid request s.fc_pending },
        d.map (fun x => Event.reqData request.frq_rid x))
    | .fail e =>
      let cause := mkVError e.name none
        [("rpcMsgid", InfoVal.num request.frq_msgid),
         ("rpcMethod", InfoVal.str request.frq_rpcmethod),
         ("context", InfoVal.ctx (e.context.getD [])),
         ("errors", InfoVal.errs (e.aseErrors.getD []))]
        e.message
      let request := { request with frq_done_graceful := true }
      requestFail s request (mkVError "VError" (some cause) [] "server error")
  | none =>
    match alookup message.msgid s.fc_aborted with
    | some request =>
      let request := { request with frq_last := some message }
      match message.body with
      | .done _d =>
        ({ s with fc_aborted := aremove message.msgid s.fc_aborted }, [])
      | _ =>
        let request := { request with frq_nignored := request.frq_nignored + 1 }
        ({ s with fc_aborted := aset message.msgid request s.fc_aborted }, [])
    | none =>
      fatalError s (mkVError "FastProtocolError" none
        [("fast_reason", InfoVal.str "unknown_msgid"),
         ("fast_msgid", InfoVal.num message.msgid)]
        ("fast protocol: received message with unknown msgid " ++ toString message.msgid))

/-- `FastClient.prototype.detach`.  A second call returns immediately.  A
first call sets `fc_detached`, removes the transport `end` listener, and
then calls `removeListener('error', this.fc_transport_onerror)` — a
property that is never assigned (`attach` stores the handler in
`fc_transport_onerr`), so `removeListener` receives `undefined` and throws
a TypeError; the unpiping and `requestAbortAll` lines are never reached.
The third component is the message of the exception thrown, if any. -/
def detachCall (s : ClientState) : ClientState × List Event × Option String :=
  if s.fc_detached then (s, [], none)
  else
    ({ s with fc_detached := true, tr_onend_listener := false }, [],
      some "listener must be a function")

/-- The transport `end` handler installed by `attach`. -/
def onTransportEnd (s : ClientState) : ClientState × List Event :=
  let s1 := { s with fc_transport_ended := true }
  if s1.fc_nrpc_done < s1.fc_nrpc_started then
    fatalError s1 (mkVError "FastProtocolError" none [] "unexpected end of transport stream")
  else (s1, [])

/-- The transport `error` handler installed by `attach`. -/
def onTransportError (s : ClientState) (err : VErr) : ClientState × List Event :=
  fatalError s (mkVError "TransportError" (some err) [] "unexpected error on transport")

/-- External stimuli and caller actions driving the client. -/
inductive ClientAction : Type where
  | rpc (method : String) (args : List String)
  | abortReq (msgid : Nat)
  | onMessage (m : FMessage)
  | detach
  | transportEnd
  | transportError (e : VErr)
  | decoderError (e : VErr)
  deriving DecidableEq, BEq

/-- One step of the client: messages are only seen while the transport is
piped into the decoder, and the transport handlers only fire while
registered.  `abortReq` is the caller invoking `abort()` on the request
stream for the given msgid. -/
def step (s : ClientState) : ClientAction → ClientState × List Event
  | .rpc method args => rpcCall s method args
  | .abortReq msgid =>
    match alookup msgid s.fc_pending with
    | some r => requestAbort s r none
    | none => (s, [])
  | .onMessage m => if s.tr_reading then onMessage s m else (s, [])
  | .detach => ((detachCall s).1, [])
  | .transportEnd => if s.tr_onend_listener then onTransportEnd s else (s, [])
  | .transportError e => if s.tr_onerr_listener then onTransportError s e else (s, [])
  | .decoderError e => fatalError s e

/-- Run a list of actions, concatenating the emitted events. -/
def runClient (s : ClientState) : List ClientAction → ClientState × List Event
  | [] => (s, [])
  | a :: rest =>
    let first := step s a
    let next := runClient first.1 rest
    (next.1, first.2 ++ next.2)

/-! Trace predicates used to state the stream-event invariants. -/

/-- The request stream an event belongs to, when it is a stream event. -/
def Event.ridOf : Event → Option Nat
  | .reqData rid _ => some rid
  | .reqEnd rid => some rid
  | .reqError rid _ => some rid
  | .clientError _ => none

/-- `e` is an event of request stream `rid`. -/
def isFor (rid : Nat) : Event → Bool
  | .reqData r _ => r == rid
  | .reqEnd r => r == rid
  | .reqError r _ => r == rid
  | .clientError _ => false

/-- `e` is a terminal (`end` or `error`) of request stream `rid`. -/
def isTermFor (rid : Nat) : Event → Bool
  | .reqEnd r => r == rid
  | .reqError r _ => r == rid
  | _ => false

/-- Some terminal for `rid` occurs in the trace. -/
def hasTerm (rid : Nat) (l : List Event) : Bool :=
  l.any (isTermFor rid)

/-- Some event for `rid` occurs in the trace. -/
def hasEvents (rid : Nat) (l : List Event) : Bool :=
  l.any (isFor rid)

/-- Number of terminals for `rid` in the trace. -/
def countTerm (rid : Nat) (l : List Event) : Nat :=
  l.countP (fun e => isTermFor rid e)

/-- Every terminal for `rid` in the trace is followed by no further event
for `rid`: data deliveries strictly precede the terminal, at most one
terminal occurs, and nothing follows it. -/
def okTraceB (rid : Nat) : List Event → Bool
  | [] => true
  | e :: rest => (if isTermFor rid e then !(rest.any (isFor rid)) else true) && okTraceB rid rest

/-- The stream identities of the requests currently pending. -/
def pendingRids (s : ClientState) : List Nat :=
  s.fc_pending.map (fun p => p.2.frq_rid)

/-- Well-formedness of the pending table: msgid keys are unique and match
the stored requests, stream identities are unique and positive, and every
pending request is still live (no error, not gracefully done, not
aborted).  Every reachable state satisfies this. -/
def PendingOk (s : ClientState) : Prop :=
  (s.fc_pending.map Prod.fst).Nodup ∧ (pendingRids s).Nodup ∧
    ∀ p ∈ s.fc_pending, p.2.frq_msgid = p.1 ∧ p.2.frq_error = none ∧
      p.2.frq_done_graceful = false ∧ p.2.frq_aborted = false ∧
      1 ≤ p.2.frq_rid ∧ p.2.frq_rid ≤ s.fc_nrpc_started

instance (s : ClientState) : Decidable (PendingOk s) := by
  unfold PendingOk
  exact @instDecidableAnd _ _ inferInstance
    (@instDecidableAnd _ _ inferInstance (List.decidableBAll _ s.fc_pending))

/-- The full reachability invariant tying a client state to the trace of
events emitted since construction. -/
structure ClientInv (s : ClientState) (evts : List Event) : Prop where
  counters : s.fc_nrpc_started = s.fc_nrpc_done + s.fc_pending.length
  pendingOk : PendingOk s
  pendingNoTerm : ∀ p ∈ s.fc_pending, hasTerm p.2.frq_rid evts = false
  freshNoEvents : ∀ rid, s.fc_nrpc_started < rid → hasEvents rid evts = false
  traceOk : ∀ rid, okTraceB rid evts = true
  doneHasTerm : ∀ rid, 1 ≤ rid → rid ≤ s.fc_nrpc_started →
    rid ∉ pendingRids s → hasTerm rid evts = true

/-! Theorems. -/

theorem allocMessageId_fst_eq_snd (s : Nat) :
    (allocMessageId s).1 = (allocMessageId s).2 := by
  simp only [allocMessageId]
  split <;> rfl

theorem msgidAfter_formula (n : Nat) :
    msgidAfter (n + 1) = n % 2147483646 + 1 := by
  induction n with
  | zero => rfl
  | succ n ih =>
    show (allocMessageId (msgidAfter (n + 1))).2 = _
    rw [ih]
    simp only [allocMessageId, FP_MSGID_MAX]
    split
    · omega
    · omega

/-- C10: for every n ≥ 1, the n-th msgid allocated by a client equals
((n − 1) mod (2^31 − 2)) + 1; the sequence starts at 1, increases by 1,
never contains 0, and wraps to 1 when the counter would reach 2^31 − 1. -/
theorem c10_nth_msgid (n : Nat) (h : 1 ≤ n) :
    nthMsgid n = (n - 1) % (2 ^ 31 - 2) + 1 ∧ nthMsgid n ≠ 0 := by
  obtain ⟨m, rfl⟩ : ∃ m, n = m + 1 := ⟨n - 1, by omega⟩
  have h1 : nthMsgid (m + 1) = msgidAfter (m + 1) := by
    show (allocMessageId (msgidAfter (m + 1 - 1))).1 = _
    rw [allocMessageId_fst_eq_snd]
    rfl
  rw [h1, msgidAfter_formula]
  norm_num

/-- Witness for C10 at a concrete index: the fifth allocation is msgid 5. -/
theorem c10_nth_msgid_witness :
    1 ≤ 5 ∧ nthMsgid 5 = (5 - 1) % (2 ^ 31 - 2) + 1 ∧ nthMsgid 5 ≠ 0 :=
  ⟨by decide, c10_nth_msgid 5 (by decide)⟩

/-- C9: for the message `{msgid: 1, status: DATA, data: ["hello","world"]}`
the encoder's payload is the UTF-8 JSON `["hello","world"]` and the CRC
header field (bytes 7-10, big-endian) is 10980 in OLD mode, 7500 in NEW
mode, and 10980 (the OLD checksum) in OLD_NEW mode. -/
theorem c9_crc_reference_vector :
    jsonStringifyArr ["hello", "world"] = "[\"hello\",\"world\"]" ∧
    (fastMessageEncode CrcMode.old 1 1 ["hello", "world"]).drop 15 =
      asciiBytes "[\"hello\",\"world\"]" ∧
    ((fastMessageEncode CrcMode.old 1 1 ["hello", "world"]).drop 7).take 4 = be32 10980 ∧
    ((fastMessageEncode CrcMode.new 1 1 ["hello", "world"]).drop 7).take 4 = be32 7500 ∧
    ((fastMessageEncode CrcMode.oldNew 1 1 ["hello", "world"]).drop 7).take 4 = be32 10980 := by
  refine ⟨by decide, by decide, by decide, by decide, by decide⟩

/-- C1: the claim states that an END message's `data.d` items are appended
to the request stream before it ends; in the translated source the pending
END branch completes the request and ends the stream without pushing any
item, so an END carrying `"lastmessage"` produces only the `end` event and
no `data` event. -/
theorem c1_end_items_dropped :
    (runClient clientInit [ClientAction.rpc "testmethod" ["arg"],
      ClientAction.onMessage ⟨1, MsgBody.done ["lastmessage"]⟩]).2 = [Event.reqEnd 1] := by
  rfl

/-- C2: the claim states that a failed request delivers a
`FastRequestError` with message `request failed: <cause_message>`; in the
translated source `requestFail` names the wrapper after its cause and
passes no short message, so a request issued after the transport ended
fails with name `TransportError` and message `: transport detached`. -/
theorem c2_request_error_misnamed :
    ∃ e : VErr,
      (runClient clientInit [ClientAction.transportEnd, ClientAction.rpc "testmethod" []]).2 =
        [Event.reqError 1 e] ∧
      e.name = "TransportError" ∧
      e.message = ": transport detached" ∧
      (infoGet "rpcMsgid" e).isSome = true ∧
      (infoGet "rpcMethod" e).isSome = true := by
  exact ⟨_, rfl, by decide, by decide, by decide, by decide⟩

/-- C3: the claim states that a server ERROR produces
`FastRequestError` → `FastServerError` → server-named error with the
server-supplied info merged in; in the translated source both wrapper
layers are plain `VError`s, the rendered message is
`: server error: dummy error message`, and `data.d.info` is never read, so
`dummyProp` is absent from the merged info. -/
theorem c3_server_error_wrappers :
    ∃ e : VErr,
      (runClient clientInit [ClientAction.rpc "testmethod" ["a"],
        ClientAction.onMessage ⟨1, MsgBody.fail ⟨"DummyError", "dummy error message",
          [("dummyProp", "dummyVal")], some [("dummyProp", "dummyVal")], none⟩⟩]).2 =
        [Event.reqError 1 e] ∧
      e.name = "VError" ∧
      e.message = ": server error: dummy error message" ∧
      e.cause.map VErr.name = some "VError" ∧
      (e.cause.bind VErr.cause).map VErr.name = some "DummyError" ∧
      infoGet "dummyProp" e = none := by
  exact ⟨_, rfl, by decide, by decide, by decide, by decide, by decide⟩

/-- C7: the claim states that the first `detach()` unregisters both
transport listeners, stops reading and writing, and fails every pending
request with `TransportError('client detached from transport')`; in the
translated source `detach` removes the `end` listener and then calls
`removeListener('error', this.fc_transport_onerror)` — an unassigned
property — so it throws a TypeError, leaving the `error` listener
registered, the streams piped, and the pending request unterminated.  A
second call is a no-op. -/
theorem c7_detach_throws :
    (detachCall (runClient clientInit [ClientAction.rpc "testmethod" []]).1).2.2 =
      some "listener must be a function" ∧
    (detachCall (runClient clientInit [ClientAction.rpc "testmethod" []]).1).2.1 = [] ∧
    (detachCall (runClient clientInit [ClientAction.rpc "testmethod" []]).1).1.tr_onerr_listener
      = true ∧
    (detachCall (runClient clientInit [ClientAction.rpc "testmethod" []]).1).1.tr_reading = true ∧
    (detachCall (runClient clientInit [ClientAction.rpc "testmethod" []]).1).1.tr_writing = true ∧
    ((detachCall (runClient clientInit [ClientAction.rpc "testmethod" []]).1).1.fc_pending.map
      (fun p => p.2.frq_error)) = [none] ∧
    detachCall (detachCall (runClient clientInit [ClientAction.rpc "testmethod" []]).1).1 =
      ((detachCall (runClient clientInit [ClientAction.rpc "testmethod" []]).1).1, [], none) := by
  refine ⟨by decide, by decide, by decide, by decide, by decide, by decide, by decide⟩

/-! Association-table lemmas. -/

theorem alookup_cons {α : Type} (k : Nat) (p : Nat × α) (rest : List (Nat × α)) :
    alookup k (p :: rest) = if p.1 = k then some p.2 else alookup k rest := by
  obtain ⟨a, b⟩ := p
  rfl

theorem aremove_cons {α : Type} (k : Nat) (p : Nat × α) (rest : List (Nat × α)) :
    aremove k (p :: rest) = if p.1 = k then aremove k rest else p :: aremove k rest := by
  by_cases h : p.1 = k <;> simp [aremove, List.filter_cons, h]

theorem alookup_mem {α : Type} {l : List (Nat × α)} {k : Nat} {v : α}
    (h : alookup k l = some v) : (k, v) ∈ l := by
  induction l with
  | nil => simp [alookup] at h
  | cons p rest ih =>
    rw [alookup_cons] at h
    by_cases hk : p.1 = k
    · simp only [hk, if_true, Option.some.injEq] at h
      have : p = (k, v) := by
        obtain ⟨a, b⟩ := p
        simp only at hk h
        simp [hk, h]
      exact this ▸ List.mem_cons_self _ _
    · simp only [hk, if_false] at h
      exact List.mem_cons_of_mem _ (ih h)

theorem mem_keys_of_mem {α : Type} {l : List (Nat × α)} {p : Nat × α}
    (h : p ∈ l) : p.1 ∈ l.map Prod.fst :=
  List.mem_map_of_mem _ h

theorem alookup_of_mem_nodup {α : Type} {l : List (Nat × α)} {k : Nat} {v : α}
    (hnd : (l.map Prod.fst).Nodup) (h : (k, v) ∈ l) : alookup k l = some v := by
  induction l with
  | nil => simp at h
  | cons p rest ih =>
    simp only [List.map_cons, List.nodup_cons] at hnd
    rw [alookup_cons]
    rcases List.mem_cons.mp h with h1 | h1
    · simp [← h1]
    · have hne : p.1 ≠ k := by
        intro he
        exact hnd.1 (he ▸ (show k ∈ _ from by simpa using mem_keys_of_mem h1))
      simp only [hne, if_false]
      exact ih hnd.2 h1

theorem mem_key_eq {α : Type} {l : List (Nat × α)} {k : Nat} {v : α} {p : Nat × α}
    (hnd : (l.map Prod.fst).Nodup) (hlk : alookup k l = some v)
    (hp : p ∈ l) (hk : p.1 = k) : p = (k, v) := by
  obtain ⟨k2, v2⟩ := p
  simp only at hk
  subst hk
  have := alookup_of_mem_nodup hnd hp
  rw [hlk] at this
  simpa using this.symm

theorem alookup_aremove_self {α : Type} (k : Nat) (l : List (Nat × α)) :
    alookup k (aremove k l) = none := by
  induction l with
  | nil => rfl
  | cons p rest ih =>
    rw [aremove_cons]
    by_cases hk : p.1 = k
    · simpa [hk] using ih
    · simpa [hk, alookup_cons] using ih

theorem alookup_aremove_ne {α : Type} {k k2 : Nat} (l : List (Nat × α)) (h : k2 ≠ k) :
    alookup k2 (aremove k l) = alookup k2 l := by
  induction l with
  | nil => rfl
  | cons p rest ih =>
    rw [aremove_cons]
    by_cases hk : p.1 = k
    · have h2 : ¬(p.1 = k2) := fun he => h (he ▸ hk)
      rw [if_pos hk, ih, alookup_cons, if_neg h2]
    · by_cases hk2 : p.1 = k2
      · rw [if_neg hk, alookup_cons, if_pos hk2, alookup_cons, if_pos hk2]
      · rw [if_neg hk, alookup_cons, if_neg hk2, alookup_cons, if_neg hk2, ih]

theorem mem_aremove_iff {α : Type} {k : Nat} {l : List (Nat × α)} {p : Nat × α} :
    p ∈ aremove k l ↔ p ∈ l ∧ p.1 ≠ k := by
  simp [aremove, List.mem_filter]

theorem aremove_map_sublist {α β : Type} (f : Nat × α → β) (k : Nat) (l : List (Nat × α)) :
    List.Sublist ((aremove k l).map f) (l.map f) :=
  List.Sublist.map f (List.filter_sublist l)

theorem aremove_eq_self_of_notmem {α : Type} {k : Nat} {l : List (Nat × α)}
    (h : k ∉ l.map Prod.fst) : aremove k l = l := by
  induction l with
  | nil => rfl
  | cons p rest ih =>
    simp only [List.map_cons, List.mem_cons, not_or] at h
    rw [aremove_cons, if_neg (fun he => h.1 he.symm), ih h.2]

theorem aremove_length {α : Type} {l : List (Nat × α)} {k : Nat} {v : α}
    (hnd : (l.map Prod.fst).Nodup) (hlk : alookup k l = some v) :
    (aremove k l).length + 1 = l.length := by
  induction l with
  | nil => simp [alookup] at hlk
  | cons p rest ih =>
    simp only [List.map_cons, List.nodup_cons] at hnd
    rw [aremove_cons]
    by_cases hk : p.1 = k
    · rw [if_pos hk, aremove_eq_self_of_notmem (hk ▸ hnd.1)]
      simp
    · rw [alookup_cons, if_neg hk] at hlk
      simpa [hk] using ih hnd.2 hlk

theorem mem_aremove_or {α : Type} {l : List (Nat × α)} {k : Nat} {v : α} {p : Nat × α}
    (hnd : (l.map Prod.fst).Nodup) (hlk : alookup k l = some v) (hp : p ∈ l) :
    p ∈ aremove k l ∨ p = (k, v) := by
  by_cases hk : p.1 = k
  · exact Or.inr (mem_key_eq hnd hlk hp hk)
  · exact Or.inl (mem_aremove_iff.mpr ⟨hp, hk⟩)

theorem amember_true_of_alookup {α : Type} {l : List (Nat × α)} {k : Nat} {v : α}
    (h : alookup k l = some v) : amember k l = true := by
  simp [amember, h]

theorem alookup_isSome_of_mem {α : Type} {l : List (Nat × α)} {p : Nat × α}
    (h : p ∈ l) : (alookup p.1 l).isSome = true := by
  induction l with
  | nil => simp at h
  | cons q rest ih =>
    rw [alookup_cons]
    rcases List.mem_cons.mp h with h1 | h1
    · simp [h1]
    · by_cases hk : q.1 = p.1
      · simp [hk]
      · simpa [hk] using ih h1

theorem amember_false_not_mem_keys {α : Type} {l : List (Nat × α)} {k : Nat}
    (h : amember k l = false) : k ∉ l.map Prod.fst := by
  intro hmem
  obtain ⟨p, hp, hfst⟩ := List.mem_map.mp hmem
  have := alookup_isSome_of_mem hp
  rw [hfst] at this
  simp [amember, this] at h


/-! Table-update lemmas for `aset`. -/

theorem alookup_map_set {α : Type} {k : Nat} (v : α) {l : List (Nat × α)}
    (hm : (alookup k l).isSome = true) :
    alookup k (l.map (fun p => if p.1 == k then (k, v) else p)) = some v := by
  induction l with
  | nil => simp [alookup] at hm
  | cons p rest ih =>
    rw [List.map_cons]
    by_cases hk : p.1 = k
    · rw [if_pos (by simp [hk]), alookup_cons, if_pos rfl]
    · rw [if_neg (by simp [hk]), alookup_cons, if_neg hk]
      rw [alookup_cons, if_neg hk] at hm
      exact ih hm

theorem alookup_append_of_none {α : Type} {k : Nat} {l : List (Nat × α)} (l2 : List (Nat × α))
    (h : alookup k l = none) : alookup k (l ++ l2) = alookup k l2 := by
  induction l with
  | nil => rfl
  | cons p rest ih =>
    rw [alookup_cons] at h
    by_cases hk : p.1 = k
    · simp [hk] at h
    · rw [List.cons_append, alookup_cons, if_neg hk]
      exact ih (by simpa [hk] using h)

theorem alookup_aset_self {α : Type} (k : Nat) (v : α) (l : List (Nat × α)) :
    alookup k (aset k v l) = some v := by
  unfold aset
  by_cases hm : amember k l = true
  · rw [if_pos hm]
    exact alookup_map_set v (by simpa [amember] using hm)
  · rw [if_neg hm]
    have h0 : alookup k l = none := by
      simp only [amember] at hm
      exact Option.not_isSome_iff_eq_none.mp (by simpa using hm)
    rw [alookup_append_of_none _ h0, alookup_cons, if_pos rfl]

theorem alookup_aset_ne {α : Type} {k k2 : Nat} (v : α) (l : List (Nat × α)) (h : k2 ≠ k) :
    alookup k2 (aset k v l) = alookup k2 l := by
  have hkk2 : ¬(k = k2) := fun he => h he.symm
  unfold aset
  by_cases hm : amember k l = true
  · rw [if_pos hm]
    clear hm
    induction l with
    | nil => rfl
    | cons p rest ih =>
      rw [List.map_cons]
      by_cases hk : p.1 = k
      · rw [if_pos (by simp [hk]), alookup_cons, alookup_cons,
          if_neg (show ¬((k, v).1 = k2) from by simpa using hkk2),
          if_neg (show ¬(p.1 = k2) from fun he => hkk2 (hk ▸ he))]
        exact ih
      · rw [if_neg (by simp [hk]), alookup_cons, alookup_cons]
        by_cases hk2 : p.1 = k2
        · rw [if_pos hk2, if_pos hk2]
        · rw [if_neg hk2, if_neg hk2]
          exact ih
  · rw [if_neg hm]
    clear hm
    induction l with
    | nil => simp [alookup, hkk2]
    | cons p rest ih =>
      rw [List.cons_append, alookup_cons, alookup_cons]
      by_cases hk2 : p.1 = k2
      · rw [if_pos hk2, if_pos hk2]
      · rw [if_neg hk2, if_neg hk2]
        exact ih

theorem aset_keys {α : Type} {k : Nat} {v : α} {l : List (Nat × α)}
    (hm : amember k l = true) :
    (aset k v l).map Prod.fst = l.map Prod.fst := by
  unfold aset
  rw [if_pos hm, List.map_map]
  apply List.map_congr_left
  intro p _hp
  by_cases hk : p.1 = k
  · simp [Function.comp, hk]
  · simp [Function.comp, hk]

theorem aset_length {α : Type} {k : Nat} {v : α} {l : List (Nat × α)}
    (hm : amember k l = true) :
    (aset k v l).length = l.length := by
  have := congrArg List.length (aset_keys (v := v) hm)
  simpa using this

theorem mem_aset_member {α : Type} {k : Nat} {v : α} {l : List (Nat × α)} {p : Nat × α}
    (hm : amember k l = true) (hp : p ∈ aset k v l) :
    p = (k, v) ∨ (p ∈ l ∧ p.1 ≠ k) := by
  unfold aset at hp
  rw [if_pos hm] at hp
  obtain ⟨q, hq, he⟩ := List.mem_map.mp hp
  by_cases hk : q.1 = k
  · rw [if_pos (by simp [hk])] at he
    exact Or.inl he.symm
  · rw [if_neg (by simp [hk])] at he
    exact Or.inr ⟨he ▸ hq, he ▸ hk⟩

theorem aset_map_snd_eq {α β : Type} {k : Nat} {v r : α} {l : List (Nat × α)} (f : α → β)
    (hnd : (l.map Prod.fst).Nodup) (hlk : alookup k l = some r) (hf : f v = f r) :
    (aset k v l).map (fun p => f p.2) = l.map (fun p => f p.2) := by
  unfold aset
  rw [if_pos (amember_true_of_alookup hlk), List.map_map]
  apply List.map_congr_left
  intro p hp
  by_cases hk : p.1 = k
  · have hpe : p = (k, r) := mem_key_eq hnd hlk hp hk
    simp [Function.comp, hk, hpe, hf]
  · simp [Function.comp, hk]

/-! Trace lemmas. -/

theorem isFor_of_isTermFor {rid : Nat} {e : Event} (h : isTermFor rid e = true) :
    isFor rid e = true := by
  cases e <;> simp [isTermFor, isFor] at h ⊢ <;> exact h

theorem hasTerm_cons (rid : Nat) (e : Event) (l : List Event) :
    hasTerm rid (e :: l) = (isTermFor rid e || hasTerm rid l) := by
  simp [hasTerm]

theorem hasTerm_append (rid : Nat) (l m : List Event) :
    hasTerm rid (l ++ m) = (hasTerm rid l || hasTerm rid m) := by
  simp [hasTerm]

theorem hasEvents_cons (rid : Nat) (e : Event) (l : List Event) :
    hasEvents rid (e :: l) = (isFor rid e || hasEvents rid l) := by
  simp [hasEvents]

theorem hasEvents_append (rid : Nat) (l m : List Event) :
    hasEvents rid (l ++ m) = (hasEvents rid l || hasEvents rid m) := by
  simp [hasEvents]

theorem hasTerm_false_of_hasEvents_false {rid : Nat} {l : List Event}
    (h : hasEvents rid l = false) : hasTerm rid l = false := by
  rw [Bool.eq_false_iff]
  intro ht
  obtain ⟨e, he, hte⟩ := List.any_eq_true.mp ht
  have : hasEvents rid l = true := List.any_eq_true.mpr ⟨e, he, isFor_of_isTermFor hte⟩
  rw [h] at this
  cases this

theorem okTraceB_cons (rid : Nat) (e : Event) (l : List Event) :
    okTraceB rid (e :: l) =
      ((if isTermFor rid e then !(l.any (isFor rid)) else true) && okTraceB rid l) := rfl

theorem okTraceB_singleton (rid : Nat) (e : Event) : okTraceB rid [e] = true := by
  rw [okTraceB_cons]
  cases ht : isTermFor rid e <;> simp [okTraceB]

theorem okTraceB_of_no_term {rid : Nat} {l : List Event}
    (h : hasTerm rid l = false) : okTraceB rid l = true := by
  induction l with
  | nil => rfl
  | cons e rest ih =>
    rw [hasTerm_cons, Bool.or_eq_false_iff] at h
    rw [okTraceB_cons, h.1, ih h.2]
    simp

theorem okTraceB_append {rid : Nat} {l m : List Event}
    (h1 : okTraceB rid l = true) (h2 : okTraceB rid m = true)
    (h3 : hasTerm rid l = true → hasEvents rid m = false) :
    okTraceB rid (l ++ m) = true := by
  induction l with
  | nil => simpa using h2
  | cons e rest ih =>
    rw [List.cons_append, okTraceB_cons]
    rw [okTraceB_cons, Bool.and_eq_true] at h1
    have hrest : okTraceB rid (rest ++ m) = true := by
      apply ih h1.2
      intro ht
      exact h3 (by rw [hasTerm_cons, ht]; simp)
    rw [hrest, Bool.and_true]
    cases hte : isTermFor rid e
    · simp
    · have hm0 : hasEvents rid m = false := h3 (by rw [hasTerm_cons, hte]; simp)
      have hr0 : rest.any (isFor rid) = false := by
        rw [hte] at h1
        simpa using h1.1
      simp only [if_true, List.any_append]
      rw [hr0]
      simpa [hasEvents] using hm0

theorem countTerm_cons (rid : Nat) (e : Event) (l : List Event) :
    countTerm rid (e :: l) = countTerm rid l + if isTermFor rid e then 1 else 0 := by
  simp [countTerm, List.countP_cons]

theorem countTerm_append (rid : Nat) (l m : List Event) :
    countTerm rid (l ++ m) = countTerm rid l + countTerm rid m := by
  simp [countTerm, List.countP_append]

theorem countTerm_eq_zero_of_no_events {rid : Nat} {l : List Event}
    (h : hasEvents rid l = false) : countTerm rid l = 0 := by
  rw [countTerm, List.countP_eq_zero]
  intro e he
  intro hte
  have : hasEvents rid l = true := List.any_eq_true.mpr ⟨e, he, isFor_of_isTermFor hte⟩
  rw [h] at this
  cases this

theorem countTerm_le_one_of_ok {rid : Nat} {l : List Event}
    (h : okTraceB rid l = true) : countTerm rid l ≤ 1 := by
  induction l with
  | nil => simp [countTerm]
  | cons e rest ih =>
    rw [okTraceB_cons, Bool.and_eq_true] at h
    rw [countTerm_cons]
    cases hte : isTermFor rid e
    · simpa using ih h.2
    · rw [hte] at h
      have : countTerm rid rest = 0 :=
        countTerm_eq_zero_of_no_events (by simpa [hasEvents] using h.1)
      simp [this]

theorem countTerm_eq_one_of_ok {rid : Nat} {l : List Event}
    (h : okTraceB rid l = true) (ht : hasTerm rid l = true) : countTerm rid l = 1 := by
  induction l with
  | nil => simp [hasTerm] at ht
  | cons e rest ih =>
    rw [okTraceB_cons, Bool.and_eq_true] at h
    rw [countTerm_cons]
    cases hte : isTermFor rid e
    · rw [hasTerm_cons, hte, Bool.false_or] at ht
      simpa using ih h.2 ht
    · rw [hte] at h
      have : countTerm rid rest = 0 :=
        countTerm_eq_zero_of_no_events (by simpa [hasEvents] using h.1)
      simp [this]

/-! Invariant preservation lemmas. -/

theorem inv_frame {s s2 : ClientState} {evts : List Event}
    (hinv : ClientInv s evts)
    (hp : s2.fc_pending = s.fc_pending)
    (hst : s2.fc_nrpc_started = s.fc_nrpc_started)
    (hdn : s2.fc_nrpc_done = s.fc_nrpc_done) :
    ClientInv s2 evts := by
  constructor
  · rw [hp, hst, hdn]
    exact hinv.counters
  · have h := hinv.pendingOk
    unfold PendingOk pendingRids at h ⊢
    rw [hp, hst]
    exact h
  · rw [hp]
    exact hinv.pendingNoTerm
  · rw [hst]
    exact hinv.freshNoEvents
  · exact hinv.traceOk
  · intro rid h1 h2 h3
    rw [hst] at h2
    unfold pendingRids at h3
    rw [hp] at h3
    exact hinv.doneHasTerm rid h1 h2 h3

theorem inv_clientError {s : ClientState} {evts : List Event} (e : VErr)
    (hinv : ClientInv s evts) : ClientInv s (evts ++ [Event.clientError e]) := by
  have hno : ∀ rid, hasEvents rid [Event.clientError e] = false := by
    intro rid
    simp [hasEvents, isFor]
  constructor
  · exact hinv.counters
  · exact hinv.pendingOk
  · intro p hp
    rw [hasTerm_append, hinv.pendingNoTerm p hp, hasTerm_false_of_hasEvents_false (hno _)]
    rfl
  · intro rid h
    rw [hasEvents_append, hinv.freshNoEvents rid h, hno]
    rfl
  · intro rid
    exact okTraceB_append (hinv.traceOk rid) (okTraceB_singleton _ _) (fun _ => hno rid)
  · intro rid h1 h2 h3
    rw [hasTerm_append, hinv.doneHasTerm rid h1 h2 h3]
    rfl

theorem inv_step_remove {s s2 : ClientState} {evts : List Event} {k : Nat}
    {r : FastRpcRequest} {ev : Event}
    (hinv : ClientInv s evts)
    (hlk : alookup k s.fc_pending = some r)
    (hp : s2.fc_pending = aremove k s.fc_pending)
    (hst : s2.fc_nrpc_started = s.fc_nrpc_started)
    (hdn : s2.fc_nrpc_done = s.fc_nrpc_done + 1)
    (hterm : isTermFor r.frq_rid ev = true)
    (hfor : ∀ rid, rid ≠ r.frq_rid → isFor rid ev = false) :
    ClientInv s2 (evts ++ [ev]) := by
  have hmem : (k, r) ∈ s.fc_pending := alookup_mem hlk
  have hndk := hinv.pendingOk.1
  have hndr := hinv.pendingOk.2.1
  have hwf := hinv.pendingOk.2.2 _ hmem
  have hnoterm_r : hasTerm r.frq_rid evts = false := hinv.pendingNoTerm _ hmem
  have hterm2 : ∀ rid2, rid2 ≠ r.frq_rid → isTermFor rid2 ev = false := by
    intro rid2 hne
    rw [Bool.eq_false_iff]
    intro h
    have := isFor_of_isTermFor h
    rw [hfor rid2 hne] at this
    cases this
  have hlen := aremove_length hndk hlk
  have hndr2 : (s.fc_pending.map (fun p => p.2.frq_rid)).Nodup := by
    unfold pendingRids at hndr
    exact hndr
  have hridne : ∀ p, p ∈ aremove k s.fc_pending → p.2.frq_rid ≠ r.frq_rid := by
    intro p hpr he
    obtain ⟨hpl, hpk⟩ := mem_aremove_iff.mp hpr
    have : p = (k, r) := List.inj_on_of_nodup_map hndr2 hpl hmem he
    exact hpk (by rw [this])
  constructor
  · rw [hst, hdn, hp]
    have := hinv.counters
    omega
  · refine ⟨?_, ?_, ?_⟩
    · rw [hp]
      exact List.Nodup.sublist (aremove_map_sublist _ _ _) hndk
    · unfold pendingRids
      rw [hp]
      exact List.Nodup.sublist (aremove_map_sublist _ _ _) hndr
    · intro p hpr
      rw [hp] at hpr
      have := hinv.pendingOk.2.2 _ (mem_aremove_iff.mp hpr).1
      rw [hst]
      exact this
  · intro p hpr
    rw [hp] at hpr
    have h1 := hinv.pendingNoTerm _ (mem_aremove_iff.mp hpr).1
    rw [hasTerm_append, h1]
    have : isTermFor p.2.frq_rid ev = false := hterm2 _ (hridne p hpr)
    simp [hasTerm, this]
  · intro rid hr
    rw [hst] at hr
    rw [hasEvents_append, hinv.freshNoEvents rid hr]
    have hrle : r.frq_rid ≤ s.fc_nrpc_started := hwf.2.2.2.2.2
    have : isFor rid ev = false := hfor rid (by
      intro he
      subst he
      omega)
    simp [hasEvents, this]
  · intro rid
    refine okTraceB_append (hinv.traceOk rid) (okTraceB_singleton _ _) ?_
    intro ht
    by_cases he : rid = r.frq_rid
    · subst he
      rw [hnoterm_r] at ht
      cases ht
    · simp [hasEvents, hfor rid he]
  · intro rid h1 h2 h3
    rw [hst] at h2
    by_cases he : rid = r.frq_rid
    · subst he
      rw [hasTerm_append]
      simp [hasTerm, hterm]
    · have hnp : rid ∉ pendingRids s := by
        intro hmem2
        obtain ⟨q, hq, hqe⟩ := List.mem_map.mp hmem2
        rcases mem_aremove_or hndk hlk hq with hq2 | hq2
        · exact h3 (by
            unfold pendingRids
            rw [hp]
            exact List.mem_map.mpr ⟨q, hq2, hqe⟩)
        · exact he (by rw [← hqe, hq2])
      rw [hasTerm_append, hinv.doneHasTerm rid h1 h2 hnp]
      rfl

theorem inv_step_insert {s s2 : ClientState} {evts : List Event} {msgid : Nat}
    {r : FastRpcRequest}
    (hinv : ClientInv s evts)
    (hmem : amember msgid s.fc_pending = false)
    (hp : s2.fc_pending = s.fc_pending ++ [(msgid, r)])
    (hst : s2.fc_nrpc_started = s.fc_nrpc_started + 1)
    (hdn : s2.fc_nrpc_done = s.fc_nrpc_done)
    (hr : r.frq_msgid = msgid ∧ r.frq_error = none ∧ r.frq_done_graceful = false ∧
      r.frq_aborted = false ∧ r.frq_rid = s.fc_nrpc_started + 1) :
    ClientInv s2 evts := by
  have hknotin := amember_false_not_mem_keys hmem
  have hre : r.frq_rid = s.fc_nrpc_started + 1 := hr.2.2.2.2
  have hridbig : ∀ p ∈ s.fc_pending, p.2.frq_rid ≠ r.frq_rid := by
    intro p hpl he
    have := (hinv.pendingOk.2.2 _ hpl).2.2.2.2.2
    rw [he, hr.2.2.2.2] at this
    omega
  constructor
  · rw [hst, hdn, hp]
    have := hinv.counters
    simp [List.length_append]
    omega
  · refine ⟨?_, ?_, ?_⟩
    · rw [hp, List.map_append]
      apply List.Nodup.append hinv.pendingOk.1 (by simp)
      intro a ha hb
      simp at hb
      subst hb
      exact hknotin ha
    · unfold pendingRids
      rw [hp, List.map_append]
      apply List.Nodup.append hinv.pendingOk.2.1 (by simp)
      intro a ha hb
      simp at hb
      subst hb
      obtain ⟨q, hq, hqe⟩ := List.mem_map.mp ha
      exact hridbig q hq hqe
    · intro p hpl
      rw [hp] at hpl
      rw [hst]
      rcases List.mem_append.mp hpl with h1 | h1
      · have := hinv.pendingOk.2.2 _ h1
        exact ⟨this.1, this.2.1, this.2.2.1, this.2.2.2.1, this.2.2.2.2.1, by omega⟩
      · simp at h1
        subst h1
        exact ⟨hr.1, hr.2.1, hr.2.2.1, hr.2.2.2.1,
          show 1 ≤ r.frq_rid from by omega, show r.frq_rid ≤ _ from by omega⟩
  · intro p hpl
    rw [hp] at hpl
    rcases List.mem_append.mp hpl with h1 | h1
    · exact hinv.pendingNoTerm _ h1
    · simp at h1
      subst h1
      exact hasTerm_false_of_hasEvents_false
        (hinv.freshNoEvents r.frq_rid (by omega))
  · intro rid hrid
    rw [hst] at hrid
    exact hinv.freshNoEvents rid (by omega)
  · exact hinv.traceOk
  · intro rid h1 h2 h3
    rw [hst] at h2
    unfold pendingRids at h3
    rw [hp, List.map_append] at h3
    simp only [List.map_cons, List.map_nil, List.mem_append, not_or] at h3
    have hne : rid ≠ r.frq_rid := by
      intro he
      exact h3.2 (by simp [he])
    apply hinv.doneHasTerm rid h1 ?_ h3.1
    rw [hr.2.2.2.2] at hne
    omega

theorem hasTerm_map_data (rid rid2 : Nat) (d : List String) :
    hasTerm rid2 (d.map (fun x => Event.reqData rid x)) = false := by
  induction d with
  | nil => rfl
  | cons x rest ih => simpa [hasTerm_cons, isTermFor] using ih

theorem hasEvents_map_data_ne {rid rid2 : Nat} (d : List String) (h : rid2 ≠ rid) :
    hasEvents rid2 (d.map (fun x => Event.reqData rid x)) = false := by
  induction d with
  | nil => rfl
  | cons x rest ih =>
    rw [List.map_cons, hasEvents_cons, ih]
    have : (rid == rid2) = false := by
      simp
      intro he
      exact h he.symm
    simp [isFor, this]

theorem inv_step_data {s s2 : ClientState} {evts : List Event} {k : Nat}
    {r r2 : FastRpcRequest} {d : List String}
    (hinv : ClientInv s evts)
    (hlk : alookup k s.fc_pending = some r)
    (hp : s2.fc_pending = aset k r2 s.fc_pending)
    (hst : s2.fc_nrpc_started = s.fc_nrpc_started)
    (hdn : s2.fc_nrpc_done = s.fc_nrpc_done)
    (hr2 : r2.frq_msgid = r.frq_msgid ∧ r2.frq_rid = r.frq_rid ∧ r2.frq_error = r.frq_error ∧
      r2.frq_done_graceful = r.frq_done_graceful ∧ r2.frq_aborted = r.frq_aborted) :
    ClientInv s2 (evts ++ d.map (fun x => Event.reqData r.frq_rid x)) := by
  have hmem : (k, r) ∈ s.fc_pending := alookup_mem hlk
  have hndk := hinv.pendingOk.1
  have hndr := hinv.pendingOk.2.1
  have hndr2 : (s.fc_pending.map (fun p => p.2.frq_rid)).Nodup := by
    unfold pendingRids at hndr
    exact hndr
  have hwf := hinv.pendingOk.2.2 _ hmem
  have hw1 : r.frq_msgid = k := hwf.1
  have hw2 : r.frq_error = none := hwf.2.1
  have hw3 : r.frq_done_graceful = false := hwf.2.2.1
  have hw4 : r.frq_aborted = false := hwf.2.2.2.1
  have hw5 : 1 ≤ r.frq_rid := hwf.2.2.2.2.1
  have hw6 : r.frq_rid ≤ s.fc_nrpc_started := hwf.2.2.2.2.2
  have hm : amember k s.fc_pending = true := amember_true_of_alookup hlk
  have hrids : (aset k r2 s.fc_pending).map (fun p => p.2.frq_rid) =
      s.fc_pending.map (fun p => p.2.frq_rid) :=
    aset_map_snd_eq _ hndk hlk hr2.2.1
  have hnew := fun rid2 => hasTerm_map_data r.frq_rid rid2 d
  constructor
  · rw [hst, hdn, hp, show (aset k r2 s.fc_pending).length = s.fc_pending.length from
      aset_length hm]
    exact hinv.counters
  · refine ⟨?_, ?_, ?_⟩
    · rw [hp, aset_keys hm]
      exact hndk
    · unfold pendingRids
      rw [hp, hrids]
      exact hndr2
    · intro p hpl
      rw [hp] at hpl
      rw [hst]
      rcases mem_aset_member hm hpl with h1 | h1
      · subst h1
        exact ⟨show r2.frq_msgid = k from by rw [hr2.1, hw1],
          show r2.frq_error = none from by rw [hr2.2.2.1, hw2],
          show r2.frq_done_graceful = false from by rw [hr2.2.2.2.1, hw3],
          show r2.frq_aborted = false from by rw [hr2.2.2.2.2, hw4],
          show 1 ≤ r2.frq_rid from by rw [hr2.2.1]; exact hw5,
          show r2.frq_rid ≤ _ from by rw [hr2.2.1]; exact hw6⟩
      · exact hinv.pendingOk.2.2 _ h1.1
  · intro p hpl
    rw [hp] at hpl
    rw [hasTerm_append, hnew]
    rcases mem_aset_member hm hpl with h1 | h1
    · subst h1
      have : hasTerm r.frq_rid evts = false := hinv.pendingNoTerm _ hmem
      simp only [hr2.2.1]
      rw [this]
      rfl
    · rw [hinv.pendingNoTerm _ h1.1]
      rfl
  · intro rid hrid
    rw [hst] at hrid
    rw [hasEvents_append, hinv.freshNoEvents rid hrid]
    rw [hasEvents_map_data_ne]
    · rfl
    · omega
  · intro rid
    refine okTraceB_append (hinv.traceOk rid) (okTraceB_of_no_term (hnew rid)) ?_
    intro ht
    by_cases he : rid = r.frq_rid
    · subst he
      rw [hinv.pendingNoTerm _ hmem] at ht
      cases ht
    · exact hasEvents_map_data_ne d he
  · intro rid h1 h2 h3
    rw [hst] at h2
    unfold pendingRids at h3
    rw [hp, hrids] at h3
    rw [hasTerm_append, hinv.doneHasTerm rid h1 h2 h3, hnew]
    rfl

theorem pending_entry_wf {s : ClientState} {k : Nat} {r : FastRpcRequest}
    (hok : PendingOk s) (hlk : alookup k s.fc_pending = some r) :
    r.frq_msgid = k ∧ r.frq_error = none ∧ r.frq_done_graceful = false ∧
    r.frq_aborted = false ∧ 1 ≤ r.frq_rid ∧ r.frq_rid ≤ s.fc_nrpc_started ∧
    requestIsPending r = true := by
  have hmem := alookup_mem hlk
  have h := hok.2.2 _ hmem
  have h1 : r.frq_msgid = k := h.1
  have h2 : r.frq_error = none := h.2.1
  have h3 : r.frq_done_graceful = false := h.2.2.1
  have h4 : r.frq_aborted = false := h.2.2.2.1
  have h5 : 1 ≤ r.frq_rid := h.2.2.2.2.1
  have h6 : r.frq_rid ≤ s.fc_nrpc_started := h.2.2.2.2.2
  exact ⟨h1, h2, h3, h4, h5, h6, by simp [requestIsPending, h3, h2]⟩

theorem requestAbort_eq (s : ClientState) (r : FastRpcRequest) (cause : Option VErr)
    (hpend : requestIsPending r = true) :
    requestAbort s r cause =
      ({ s with
          fc_pending := aremove r.frq_msgid s.fc_pending
          fc_aborted := aset r.frq_msgid
            { r with
              frq_aborted := true
              frq_error := some (requestFailError { r with frq_aborted := true }
                (abortError cause)) }
            (aset r.frq_msgid { r with frq_aborted := true } s.fc_aborted)
          fc_nrpc_done := s.fc_nrpc_done + 1 },
        [Event.reqError r.frq_rid
          (requestFailError { r with frq_aborted := true } (abortError cause))]) := by
  have hm : amember r.frq_msgid (aset r.frq_msgid { r with frq_aborted := true }
      s.fc_aborted) = true := by
    simp [amember, alookup_aset_self]
  rw [requestAbort, hpend]
  simp only [Bool.not_true, Bool.false_eq_true, if_false]
  rw [requestFail]
  simp only [requestComplete, hm, if_true]

theorem abortList_inv {err : VErr} {todo : List (Nat × FastRpcRequest)}
    {s : ClientState} {evts : List Event}
    (hinv : ClientInv s evts)
    (hnd : (todo.map Prod.fst).Nodup)
    (hacc : ∀ p ∈ todo, alookup p.1 s.fc_pending = some p.2) :
    ClientInv (abortList s err todo).1 (evts ++ (abortList s err todo).2) := by
  induction todo generalizing s evts with
  | nil => simpa [abortList] using hinv
  | cons kr rest ih =>
    obtain ⟨k, r⟩ := kr
    have hlk : alookup k s.fc_pending = some r := hacc _ (List.mem_cons_self _ _)
    have hwf := pending_entry_wf hinv.pendingOk hlk
    simp only [abortList, hlk]
    rw [requestAbort_eq s r (some err) hwf.2.2.2.2.2.2]
    have hstep : ClientInv
        { s with
          fc_pending := aremove r.frq_msgid s.fc_pending
          fc_aborted := aset r.frq_msgid
            { r with
              frq_aborted := true
              frq_error := some (requestFailError { r with frq_aborted := true }
                (abortError (some err))) }
            (aset r.frq_msgid { r with frq_aborted := true } s.fc_aborted)
          fc_nrpc_done := s.fc_nrpc_done + 1 }
        (evts ++ [Event.reqError r.frq_rid
          (requestFailError { r with frq_aborted := true } (abortError (some err)))]) := by
      apply inv_step_remove hinv hlk
      · rw [hwf.1]
      · rfl
      · rfl
      · simp [isTermFor]
      · intro rid hne
        simp [isFor]
        intro he
        exact absurd he.symm hne
    simp only [List.map_cons, List.nodup_cons] at hnd
    have hrest := ih hstep hnd.2 (by
      intro p hp
      have hne : p.1 ≠ k := by
        intro he
        exact hnd.1 (he ▸ mem_keys_of_mem hp)
      show alookup p.1 (aremove r.frq_msgid s.fc_pending) = some p.2
      rw [hwf.1, alookup_aremove_ne _ hne]
      exact hacc _ (List.mem_cons_of_mem _ hp))
    rw [List.append_assoc] at hrest
    exact hrest

theorem inv_fatalError {s : ClientState} {evts : List Event} (err : VErr)
    (hinv : ClientInv s evts) :
    ClientInv (fatalError s err).1 (evts ++ (fatalError s err).2) := by
  rw [fatalError]
  by_cases he : s.fc_error.isSome = true
  · simp only [he, if_true]
    rw [List.append_nil]
    exact inv_frame hinv rfl rfl rfl
  · simp only [he, if_false, requestAbortAll]
    have hinv2 : ClientInv
        { s with fc_nerrors := s.fc_nerrors + 1, fc_error := some err } evts :=
      inv_frame hinv rfl rfl rfl
    have hinv3 := inv_clientError err hinv2
    have hres := @abortList_inv err _ _ _ hinv3 hinv2.pendingOk.1 (by
      intro p hp
      exact alookup_of_mem_nodup hinv2.pendingOk.1 (by
        obtain ⟨a, b⟩ := p
        exact hp))
    simpa using hres

theorem requestFail_eq (s : ClientState) (r : FastRpcRequest) (error : VErr) :
    requestFail s r error =
      ({ s with
          fc_pending := aremove r.frq_msgid s.fc_pending
          fc_aborted :=
            if amember r.frq_msgid s.fc_aborted then
              aset r.frq_msgid { r with frq_error := some (requestFailError r error) }
                s.fc_aborted
            else s.fc_aborted
          fc_nrpc_done := s.fc_nrpc_done + 1 },
        [Event.reqError r.frq_rid (requestFailError r error)]) := by
  rw [requestFail]
  rfl

theorem amember_false_alookup_none {α : Type} {l : List (Nat × α)} {k : Nat}
    (h : amember k l = false) : alookup k l = none := by
  simp only [amember] at h
  exact Option.not_isSome_iff_eq_none.mp (by simp [h])

theorem alookup_append_singleton_self {α : Type} {l : List (Nat × α)} {k : Nat} (v : α)
    (h : amember k l = false) : alookup k (l ++ [(k, v)]) = some v := by
  rw [alookup_append_of_none _ (amember_false_alookup_none h), alookup_cons, if_pos rfl]

theorem rpcCall_collision {s : ClientState} (method : String) (args : List String)
    (hm : amember (allocMessageId s.fc_msgid).1 s.fc_pending = true) :
    rpcCall s method args = ({ s with fc_msgid := (allocMessageId s.fc_msgid).2 }, []) := by
  rw [rpcCall]
  simp only [hm, if_true]

theorem rpcCall_live {s : ClientState} (method : String) (args : List String)
    (hm : amember (allocMessageId s.fc_msgid).1 s.fc_pending = false)
    (hd : (s.fc_detached || s.fc_transport_ended) = false) :
    rpcCall s method args =
      ({ s with
          fc_msgid := (allocMessageId s.fc_msgid).2
          fc_pending := s.fc_pending ++ [((allocMessageId s.fc_msgid).1,
            freshRequest (allocMessageId s.fc_msgid).1 (s.fc_nrpc_started + 1) method args)]
          fc_nrpc_started := s.fc_nrpc_started + 1 }, []) := by
  rw [rpcCall]
  simp only [hm, Bool.false_eq_true, if_false, hd]

theorem rpcCall_detached {s : ClientState} (method : String) (args : List String)
    (hm : amember (allocMessageId s.fc_msgid).1 s.fc_pending = false)
    (hd : (s.fc_detached || s.fc_transport_ended) = true) :
    rpcCall s method args =
      requestFail
        { s with
          fc_msgid := (allocMessageId s.fc_msgid).2
          fc_pending := s.fc_pending ++ [((allocMessageId s.fc_msgid).1,
            freshRequest (allocMessageId s.fc_msgid).1 (s.fc_nrpc_started + 1) method args)]
          fc_nrpc_started := s.fc_nrpc_started + 1 }
        { freshRequest (allocMessageId s.fc_msgid).1 (s.fc_nrpc_started + 1) method args with
          frq_skip := true }
        (mkVError "TransportError" none [] "transport detached") := by
  rw [rpcCall]
  simp only [hm, Bool.false_eq_true, if_false, hd, if_true]

theorem inv_no_events {s s2 : ClientState} {evts : List Event}
    (hinv : ClientInv s evts)
    (hp : s2.fc_pending = s.fc_pending)
    (hst : s2.fc_nrpc_started = s.fc_nrpc_started)
    (hdn : s2.fc_nrpc_done = s.fc_nrpc_done)
    (new : List Event) (hnew : new = []) :
    ClientInv s2 (evts ++ new) := by
  subst hnew
  rw [List.append_nil]
  exact inv_frame hinv hp hst hdn

theorem step_inv {s : ClientState} {evts : List Event} (a : ClientAction)
    (hinv : ClientInv s evts) :
    ClientInv (step s a).1 (evts ++ (step s a).2) := by
  cases a with
  | rpc method args =>
    show ClientInv (rpcCall s method args).1 (evts ++ (rpcCall s method args).2)
    by_cases hm : amember (allocMessageId s.fc_msgid).1 s.fc_pending = true
    · rw [rpcCall_collision method args hm]
      apply inv_no_events hinv
      · rfl
      · rfl
      · rfl
      · rfl
    · rw [Bool.not_eq_true] at hm
      have hinv2 : ClientInv
          { s with
            fc_msgid := (allocMessageId s.fc_msgid).2
            fc_pending := s.fc_pending ++ [((allocMessageId s.fc_msgid).1,
              freshRequest (allocMessageId s.fc_msgid).1 (s.fc_nrpc_started + 1) method args)]
            fc_nrpc_started := s.fc_nrpc_started + 1 } evts :=
        inv_step_insert hinv hm rfl rfl rfl (by simp [freshRequest])
      by_cases hd : (s.fc_detached || s.fc_transport_ended) = true
      · rw [rpcCall_detached method args hm hd]
        apply inv_step_remove hinv2 (alookup_append_singleton_self _ hm)
        · rfl
        · rfl
        · rfl
        · simp [isTermFor, freshRequest]
        · intro rid hne
          show ((freshRequest (allocMessageId s.fc_msgid).1 (s.fc_nrpc_started + 1)
            method args).frq_rid == rid) = false
          exact beq_false_of_ne (Ne.symm hne)
      · rw [Bool.not_eq_true] at hd
        rw [rpcCall_live method args hm hd]
        apply inv_no_events hinv2
        · rfl
        · rfl
        · rfl
        · rfl
  | abortReq msgid =>
    simp only [step]
    rcases hlk : alookup msgid s.fc_pending with _ | r
    · apply inv_no_events hinv
      · rfl
      · rfl
      · rfl
      · rfl
    · have hwf := pending_entry_wf hinv.pendingOk hlk
      show ClientInv (requestAbort s r none).1 (evts ++ (requestAbort s r none).2)
      rw [requestAbort_eq s r none hwf.2.2.2.2.2.2]
      apply inv_step_remove hinv hlk
      · show aremove r.frq_msgid s.fc_pending = aremove msgid s.fc_pending
        rw [hwf.1]
      · rfl
      · rfl
      · simp [isTermFor]
      · intro rid hne
        show (r.frq_rid == rid) = false
        exact beq_false_of_ne (Ne.symm hne)
  | onMessage m =>
    simp only [step]
    by_cases hr : s.tr_reading = true
    · simp only [hr, if_true]
      rcases hlk : alookup m.msgid s.fc_pending with _ | request
      · rcases hla : alookup m.msgid s.fc_aborted with _ | request
        · simp only [onMessage, hlk, hla]
          exact inv_fatalError _ hinv
        · simp only [onMessage, hlk, hla]
          cases hb : m.body with
          | done d =>
            apply inv_no_events hinv
            · rfl
            · rfl
            · rfl
            · rfl
          | data d =>
            apply inv_no_events hinv
            · rfl
            · rfl
            · rfl
            · rfl
          | fail e =>
            apply inv_no_events hinv
            · rfl
            · rfl
            · rfl
            · rfl
      · have hwf := pending_entry_wf hinv.pendingOk hlk
        simp only [onMessage, hlk]
        cases hb : m.body with
        | done d =>
          apply inv_step_remove hinv hlk
          · show aremove request.frq_msgid s.fc_pending = aremove m.msgid s.fc_pending
            rw [hwf.1]
          · rfl
          · rfl
          · simp [isTermFor]
          · intro rid hne
            show (request.frq_rid == rid) = false
            exact beq_false_of_ne (Ne.symm hne)
        | data d =>
          apply inv_step_data hinv hlk
          · rfl
          · rfl
          · rfl
          · exact ⟨rfl, rfl, rfl, rfl, rfl⟩
        | fail e =>
          apply inv_step_remove hinv hlk
          · show aremove request.frq_msgid s.fc_pending = aremove m.msgid s.fc_pending
            rw [hwf.1]
          · rfl
          · rfl
          · simp [isTermFor]
          · intro rid hne
            show (request.frq_rid == rid) = false
            exact beq_false_of_ne (Ne.symm hne)
    · rw [Bool.not_eq_true] at hr
      simp only [hr, Bool.false_eq_true, if_false]
      apply inv_no_events hinv
      · rfl
      · rfl
      · rfl
      · rfl
  | detach =>
    simp only [step, detachCall]
    by_cases hd : s.fc_detached = true
    · simp only [hd, if_true]
      apply inv_no_events hinv
      · rfl
      · rfl
      · rfl
      · rfl
    · rw [Bool.not_eq_true] at hd
      simp only [hd, Bool.false_eq_true, if_false]
      apply inv_no_events hinv
      · rfl
      · rfl
      · rfl
      · rfl
  | transportEnd =>
    simp only [step]
    by_cases hl : s.tr_onend_listener = true
    · simp only [hl, if_true, onTransportEnd]
      by_cases hc : ({ s with fc_transport_ended := true } : ClientState).fc_nrpc_done <
          ({ s with fc_transport_ended := true } : ClientState).fc_nrpc_started
      · simp only [hc, if_true]
        exact inv_fatalError _ (inv_frame hinv rfl rfl rfl)
      · simp only [hc, if_false]
        apply inv_no_events hinv
        · rfl
        · rfl
        · rfl
        · rfl
    · rw [Bool.not_eq_true] at hl
      simp only [hl, Bool.false_eq_true, if_false]
      apply inv_no_events hinv
      · rfl
      · rfl
      · rfl
      · rfl
  | transportError e =>
    simp only [step]
    by_cases hl : s.tr_onerr_listener = true
    · simp only [hl, if_true, onTransportError]
      exact inv_fatalError _ hinv
    · rw [Bool.not_eq_true] at hl
      simp only [hl, Bool.false_eq_true, if_false]
      apply inv_no_events hinv
      · rfl
      · rfl
      · rfl
      · rfl
  | decoderError e =>
    simp only [step]
    exact inv_fatalError _ hinv

theorem runClient_inv_aux {s : ClientState} {evts : List Event}
    (actions : List ClientAction) (hinv : ClientInv s evts) :
    ClientInv (runClient s actions).1 (evts ++ (runClient s actions).2) := by
  induction actions generalizing s evts with
  | nil => simpa [runClient] using hinv
  | cons a rest ih =>
    simp only [runClient]
    have h1 := step_inv a hinv
    have h2 := ih h1
    rw [List.append_assoc] at h2
    exact h2

theorem clientInit_inv : ClientInv clientInit [] := by
  constructor
  · rfl
  · refine ⟨by simp [clientInit], by simp [clientInit, pendingRids], ?_⟩
    intro p hp
    simp [clientInit] at hp
  · intro p hp
    simp [clientInit] at hp
  · intro rid _
    rfl
  · intro rid
    rfl
  · intro rid h1 h2 _
    simp [clientInit] at h2
    omega

theorem runClient_inv (actions : List ClientAction) :
    ClientInv (runClient clientInit actions).1 (runClient clientInit actions).2 := by
  have := runClient_inv_aux actions clientInit_inv
  simpa using this

/-- C4: for every request stream returned by rpc(), exactly one terminal
event (end or error) is ever emitted, and every data delivery for that
request strictly precedes its terminal; no event of any kind follows the
terminal.  Formally: over any run from the initial client state, the
events of any one stream identity contain at most one terminal, any
terminal is the last event of that stream, and every request that left
the pending table has exactly one terminal. -/
theorem c4_one_terminal_per_request (actions : List ClientAction) (rid : Nat) :
    okTraceB rid (runClient clientInit actions).2 = true ∧
    countTerm rid (runClient clientInit actions).2 ≤ 1 ∧
    (1 ≤ rid → rid ≤ (runClient clientInit actions).1.fc_nrpc_started →
      rid ∉ pendingRids (runClient clientInit actions).1 →
      countTerm rid (runClient clientInit actions).2 = 1) := by
  have hinv := runClient_inv actions
  refine ⟨hinv.traceOk rid, countTerm_le_one_of_ok (hinv.traceOk rid), ?_⟩
  intro h1 h2 h3
  exact countTerm_eq_one_of_ok (hinv.traceOk rid) (hinv.doneHasTerm rid h1 h2 h3)

/-- Witness for C4: a request answered by an END message has exactly one
terminal in its event trace. -/
theorem c4_one_terminal_per_request_witness :
    okTraceB 1 (runClient clientInit [ClientAction.rpc "testmethod" [],
      ClientAction.onMessage ⟨1, MsgBody.done []⟩]).2 = true ∧
    countTerm 1 (runClient clientInit [ClientAction.rpc "testmethod" [],
      ClientAction.onMessage ⟨1, MsgBody.done []⟩]).2 ≤ 1 ∧
    countTerm 1 (runClient clientInit [ClientAction.rpc "testmethod" [],
      ClientAction.onMessage ⟨1, MsgBody.done []⟩]).2 = 1 :=
  ⟨(c4_one_terminal_per_request _ 1).1,
   (c4_one_terminal_per_request _ 1).2.1,
   (c4_one_terminal_per_request _ 1).2.2 (by decide) (by decide) (by decide)⟩

theorem mkVError_name (n : String) (c : Option VErr) (i : List (String × InfoVal))
    (m : String) : (mkVError n c i m).name = n := by
  cases c <;> rfl

theorem requestAbort_noop (s : ClientState) (r : FastRpcRequest) (cause : Option VErr)
    (h : requestIsPending r = false) : requestAbort s r cause = (s, []) := by
  rw [requestAbort, h]
  rfl

theorem abortList_preserved (err : VErr) (todo : List (Nat × FastRpcRequest)) :
    ∀ s : ClientState,
    (abortList s err todo).1.fc_error = s.fc_error ∧
    (abortList s err todo).1.fc_nerrors = s.fc_nerrors ∧
    (abortList s err todo).1.fc_nrpc_started = s.fc_nrpc_started ∧
    (abortList s err todo).1.fc_detached = s.fc_detached ∧
    (abortList s err todo).1.fc_transport_ended = s.fc_transport_ended ∧
    (abortList s err todo).1.tr_onend_listener = s.tr_onend_listener ∧
    (abortList s err todo).1.tr_onerr_listener = s.tr_onerr_listener ∧
    (abortList s err todo).1.tr_reading = s.tr_reading ∧
    (abortList s err todo).1.tr_writing = s.tr_writing := by
  induction todo with
  | nil =>
    intro s
    simp [abortList]
  | cons kr rest ih =>
    intro s
    rcases hlk : alookup kr.1 s.fc_pending with _ | req
    · simp only [abortList, hlk]
      simpa using ih s
    · simp only [abortList, hlk]
      by_cases hpend : requestIsPending req = true
      · rw [requestAbort_eq s req (some err) hpend]
        have := ih { s with
          fc_pending := aremove req.frq_msgid s.fc_pending
          fc_aborted := aset req.frq_msgid
            { req with
              frq_aborted := true
              frq_error := some (requestFailError { req with frq_aborted := true }
                (abortError (some err))) }
            (aset req.frq_msgid { req with frq_aborted := true } s.fc_aborted)
          fc_nrpc_done := s.fc_nrpc_done + 1 }
        simpa using this
      · rw [Bool.not_eq_true] at hpend
        rw [requestAbort_noop s req (some err) hpend]
        simpa using ih s

/-- C8: a transport end-of-stream raises a fatal error if and only if a
request is pending: with none pending the client only records that the
transport ended, while with at least one pending it records and emits a
fatal `FastProtocolError` whose message is
`unexpected end of transport stream`. -/
theorem c8_transport_end_iff_pending (s : ClientState)
    (hcnt : s.fc_nrpc_started = s.fc_nrpc_done + s.fc_pending.length)
    (hne : s.fc_error = none)
    (hl : s.tr_onend_listener = true) :
    (s.fc_pending = [] →
      step s ClientAction.transportEnd = ({ s with fc_transport_ended := true }, [])) ∧
    (s.fc_pending ≠ [] → ∃ perr : VErr,
      (step s ClientAction.transportEnd).1.fc_error = some perr ∧
      perr.name = "FastProtocolError" ∧
      perr.message = "unexpected end of transport stream" ∧
      (step s ClientAction.transportEnd).2.head? = some (Event.clientError perr)) := by
  constructor
  · intro hp
    simp only [step, hl, if_true, onTransportEnd]
    rw [if_neg]
    show ¬(s.fc_nrpc_done < s.fc_nrpc_started)
    rw [hp] at hcnt
    simp at hcnt
    omega
  · intro hp
    have hlen : 0 < s.fc_pending.length := List.length_pos.mpr hp
    refine ⟨mkVError "FastProtocolError" none [] "unexpected end of transport stream",
      ?_, rfl, rfl, ?_⟩
    · simp only [step, hl, if_true, onTransportEnd]
      rw [if_pos (show s.fc_nrpc_done < s.fc_nrpc_started from by omega)]
      rw [fatalError]
      rw [show ({ s with fc_transport_ended := true, fc_nerrors := s.fc_nerrors + 1 } : ClientState).fc_error = s.fc_error from rfl, hne]
      simp only [Option.isSome_none, Bool.false_eq_true, if_false, requestAbortAll]
      exact (abortList_preserved _ _ _).1
    · simp only [step, hl, if_true, onTransportEnd]
      rw [if_pos (show s.fc_nrpc_done < s.fc_nrpc_started from by omega)]
      rw [fatalError]
      rw [show ({ s with fc_transport_ended := true, fc_nerrors := s.fc_nerrors + 1 } : ClientState).fc_error = s.fc_error from rfl, hne]
      rfl

/-- Witness for C8 at a concrete state with one pending request. -/
theorem c8_transport_end_iff_pending_witness :
    let s1 := (runClient clientInit [ClientAction.rpc "testmethod" []]).1
    s1.fc_nrpc_started = s1.fc_nrpc_done + s1.fc_pending.length ∧
    ((s1.fc_pending = [] →
      step s1 ClientAction.transportEnd = ({ s1 with fc_transport_ended := true }, [])) ∧
    (s1.fc_pending ≠ [] → ∃ perr : VErr,
      (step s1 ClientAction.transportEnd).1.fc_error = some perr ∧
      perr.name = "FastProtocolError" ∧
      perr.message = "unexpected end of transport stream" ∧
      (step s1 ClientAction.transportEnd).2.head? = some (Event.clientError perr))) :=
  ⟨by decide,
   c8_transport_end_iff_pending _ (by decide) (by decide) (by decide)⟩

theorem suffixB_self (l : List ErrLayer) : suffixB l l = true := by
  cases l with
  | nil => simp [suffixB]
  | cons x rest => simp [suffixB]

theorem suffixB_cons {c l : List ErrLayer} (x : ErrLayer) (h : suffixB c l = true) :
    suffixB c (x :: l) = true := by
  simp [suffixB, h]

theorem hasCause_self (e : VErr) : e.hasCause e = true :=
  suffixB_self e.chain

theorem hasCause_wrap (n : String) (cs : VErr) (i : List (String × InfoVal)) (m : String)
    {x : VErr} (h : cs.hasCause x = true) :
    (mkVError n (some cs) i m).hasCause x = true := by
  unfold VErr.hasCause at h ⊢
  exact suffixB_cons _ h

theorem requestFailError_hasCause (r : FastRpcRequest) (error : VErr) {x : VErr}
    (h : error.hasCause x = true) :
    (requestFailError r error).hasCause x = true :=
  hasCause_wrap _ _ _ _ h

theorem abortError_hasCause (c : VErr) :
    (abortError (some c)).hasCause c = true :=
  hasCause_wrap _ _ _ _ (hasCause_self c)

theorem abortList_mem_event (err : VErr) (todo : List (Nat × FastRpcRequest)) :
    ∀ s : ClientState,
    ((todo.map Prod.fst).Nodup) →
    (∀ p ∈ todo, alookup p.1 s.fc_pending = some p.2) →
    (∀ p ∈ todo, requestIsPending p.2 = true ∧ p.2.frq_msgid = p.1) →
    ∀ p ∈ todo, ∃ e : VErr,
      Event.reqError p.2.frq_rid e ∈ (abortList s err todo).2 ∧ e.hasCause err = true := by
  induction todo with
  | nil =>
    intro s _ _ _ p hp
    simp at hp
  | cons kr rest ih =>
    intro s hnd hacc hwf p hp
    obtain ⟨k, r⟩ := kr
    have hlk : alookup k s.fc_pending = some r := hacc _ (List.mem_cons_self _ _)
    have hpend : requestIsPending r = true := (hwf _ (List.mem_cons_self _ _)).1
    simp only [abortList, hlk]
    rw [requestAbort_eq s r (some err) hpend]
    simp only [List.map_cons, List.nodup_cons] at hnd
    rcases List.mem_cons.mp hp with h1 | h1
    · subst h1
      refine ⟨requestFailError { r with frq_aborted := true } (abortError (some err)),
        ?_, ?_⟩
      · exact List.mem_append_left _ (List.mem_singleton.mpr rfl)
      · exact requestFailError_hasCause _ _ (abortError_hasCause err)
    · have hk : r.frq_msgid = k := (hwf _ (List.mem_cons_self _ _)).2
      have hacc2 : ∀ q ∈ rest, alookup q.1
          ({ s with
            fc_pending := aremove r.frq_msgid s.fc_pending
            fc_aborted := aset r.frq_msgid
              { r with
                frq_aborted := true
                frq_error := some (requestFailError { r with frq_aborted := true }
                  (abortError (some err))) }
              (aset r.frq_msgid { r with frq_aborted := true } s.fc_aborted)
            fc_nrpc_done := s.fc_nrpc_done + 1 } : ClientState).fc_pending = some q.2 := by
        intro q hq
        have hne : q.1 ≠ k := by
          intro he
          exact hnd.1 (he ▸ mem_keys_of_mem hq)
        show alookup q.1 (aremove r.frq_msgid s.fc_pending) = some q.2
        rw [hk, alookup_aremove_ne _ hne]
        exact hacc _ (List.mem_cons_of_mem _ hq)
      obtain ⟨e, he1, he2⟩ := ih _ hnd.2 hacc2
        (fun q hq => hwf _ (List.mem_cons_of_mem _ hq)) p h1
      exact ⟨e, List.mem_append_right _ he1, he2⟩

theorem abortList_pending (err : VErr) (todo : List (Nat × FastRpcRequest)) :
    ∀ s : ClientState,
    ((todo.map Prod.fst).Nodup) →
    (∀ p ∈ todo, alookup p.1 s.fc_pending = some p.2) →
    (∀ p ∈ todo, requestIsPending p.2 = true ∧ p.2.frq_msgid = p.1) →
    (abortList s err todo).1.fc_pending =
      s.fc_pending.filter (fun p => decide (p.1 ∉ todo.map Prod.fst)) := by
  induction todo with
  | nil =>
    intro s _ _ _
    simp only [abortList, List.map_nil]
    rw [List.filter_congr (q := fun _ => true) (by intro x _; simp), List.filter_true]
  | cons kr rest ih =>
    intro s hnd hacc hwf
    obtain ⟨k, r⟩ := kr
    have hlk : alookup k s.fc_pending = some r := hacc _ (List.mem_cons_self _ _)
    have hpend : requestIsPending r = true := (hwf _ (List.mem_cons_self _ _)).1
    have hk : r.frq_msgid = k := (hwf _ (List.mem_cons_self _ _)).2
    simp only [abortList, hlk]
    rw [requestAbort_eq s r (some err) hpend]
    simp only [List.map_cons, List.nodup_cons] at hnd
    have hacc2 : ∀ q ∈ rest, alookup q.1
        ({ s with
          fc_pending := aremove r.frq_msgid s.fc_pending
          fc_aborted := aset r.frq_msgid
            { r with
              frq_aborted := true
              frq_error := some (requestFailError { r with frq_aborted := true }
                (abortError (some err))) }
            (aset r.frq_msgid { r with frq_aborted := true } s.fc_aborted)
          fc_nrpc_done := s.fc_nrpc_done + 1 } : ClientState).fc_pending = some q.2 := by
      intro q hq
      have hne : q.1 ≠ k := by
        intro he
        exact hnd.1 (he ▸ mem_keys_of_mem hq)
      show alookup q.1 (aremove r.frq_msgid s.fc_pending) = some q.2
      rw [hk, alookup_aremove_ne _ hne]
      exact hacc _ (List.mem_cons_of_mem _ hq)
    have := ih _ hnd.2 hacc2 (fun q hq => hwf _ (List.mem_cons_of_mem _ hq))
    rw [this]
    show (aremove r.frq_msgid s.fc_pending).filter _ = _
    rw [hk]
    unfold aremove
    rw [List.filter_filter]
    apply List.filter_congr
    intro x _
    by_cases h1 : x.1 = k
    · simp [h1]
    · by_cases h2 : x.1 ∈ rest.map Prod.fst
      · simp [h1, h2]
      · simp [h1, h2]

/-- C5: a decoded message whose msgid is in neither the pending nor the
aborted table raises a fatal `FastProtocolError` named and phrased
`fast protocol: received message with unknown msgid <m>`, emitted at the
engine level, and every still-pending request is failed with that error in
its cause chain, emptying the pending table. -/
theorem c5_unknown_msgid (s : ClientState) (m : FMessage)
    (hwf : PendingOk s)
    (hne : s.fc_error = none)
    (hrd : s.tr_reading = true)
    (hp : alookup m.msgid s.fc_pending = none)
    (ha : alookup m.msgid s.fc_aborted = none) :
    ∃ perr : VErr,
      (step s (ClientAction.onMessage m)).1.fc_error = some perr ∧
      perr.name = "FastProtocolError" ∧
      perr.message = "fast protocol: received message with unknown msgid " ++
        toString m.msgid ∧
      (step s (ClientAction.onMessage m)).2.head? = some (Event.clientError perr) ∧
      (step s (ClientAction.onMessage m)).1.fc_pending = [] ∧
      ∀ p ∈ s.fc_pending, ∃ e : VErr,
        Event.reqError p.2.frq_rid e ∈ (step s (ClientAction.onMessage m)).2 ∧
        e.hasCause perr = true := by
  have haccS : ∀ p ∈ s.fc_pending, alookup p.1 s.fc_pending = some p.2 := by
    intro p hp2
    exact alookup_of_mem_nodup hwf.1 hp2
  have hwfS : ∀ p ∈ s.fc_pending, requestIsPending p.2 = true ∧ p.2.frq_msgid = p.1 := by
    intro p hp2
    have h := hwf.2.2 _ hp2
    exact ⟨by simp [requestIsPending, h.2.2.1, h.2.1], h.1⟩
  simp only [step, hrd, if_true, onMessage, hp, ha]
  rw [fatalError]
  rw [show ({ s with fc_nerrors := s.fc_nerrors + 1 } : ClientState).fc_error = s.fc_error
    from rfl, hne]
  simp only [Option.isSome_none, Bool.false_eq_true, if_false, requestAbortAll]
  set err0 : VErr := mkVError "FastProtocolError" none
    [("fast_reason", InfoVal.str "unknown_msgid"), ("fast_msgid", InfoVal.num m.msgid)]
    ("fast protocol: received message with unknown msgid " ++ toString m.msgid) with herr0
  set s2 : ClientState :=
    { s with fc_error := some err0, fc_nerrors := s.fc_nerrors + 1 } with hs2
  refine ⟨err0, ?_, rfl, rfl, rfl, ?_, ?_⟩
  · exact ((abortList_preserved err0 s.fc_pending s2).1).trans rfl
  · refine (abortList_pending err0 s.fc_pending s2 hwf.1 haccS hwfS).trans ?_
    apply List.filter_eq_nil_iff.mpr
    intro a ha2
    simp
    exact ⟨a.2, ha2⟩
  · intro p hp2
    obtain ⟨e, he1, he2⟩ := abortList_mem_event err0 s.fc_pending s2 hwf.1 haccS hwfS p hp2
    exact ⟨e, List.mem_cons_of_mem _ he1, he2⟩

/-- Witness for C5: a client with one pending request receives a reply
carrying the unknown msgid 47. -/
theorem c5_unknown_msgid_witness :
    PendingOk (runClient clientInit [ClientAction.rpc "testmethod" []]).1 ∧
    ∃ perr : VErr,
      (step (runClient clientInit [ClientAction.rpc "testmethod" []]).1
        (ClientAction.onMessage ⟨47, MsgBody.done []⟩)).1.fc_error = some perr ∧
      perr.name = "FastProtocolError" ∧
      perr.message = "fast protocol: received message with unknown msgid " ++
        toString (FMessage.mk 47 (MsgBody.done [])).msgid ∧
      (step (runClient clientInit [ClientAction.rpc "testmethod" []]).1
        (ClientAction.onMessage ⟨47, MsgBody.done []⟩)).2.head? =
        some (Event.clientError perr) ∧
      (step (runClient clientInit [ClientAction.rpc "testmethod" []]).1
        (ClientAction.onMessage ⟨47, MsgBody.done []⟩)).1.fc_pending = [] ∧
      ∀ p ∈ (runClient clientInit [ClientAction.rpc "testmethod" []]).1.fc_pending,
        ∃ e : VErr,
          Event.reqError p.2.frq_rid e ∈
            (step (runClient clientInit [ClientAction.rpc "testmethod" []]).1
              (ClientAction.onMessage ⟨47, MsgBody.done []⟩)).2 ∧
          e.hasCause perr = true :=
  ⟨by decide,
   c5_unknown_msgid _ _ (by decide) (by decide) (by decide) (by decide) (by decide)⟩

/-- C6: aborting a still-pending request moves it to the aborted table and
fails it with a `RequestAbortedError`; afterwards every inbound message
for that msgid with a status other than END is dropped while incrementing
the ignored-message counter, and the first END removes the aborted-table
entry without emitting anything on the stream. -/
theorem c6_abort_semantics (s : ClientState) (msgid : Nat) (r : FastRpcRequest)
    (hwf : PendingOk s) (hlk : alookup msgid s.fc_pending = some r)
    (hrd : s.tr_reading = true)
    (m : FMessage) (hm : m.msgid = msgid) (hnotend : isEndMessage m.body = false)
    (d : List String) :
    alookup msgid (step s (ClientAction.abortReq msgid)).1.fc_pending = none ∧
    ((alookup msgid (step s (ClientAction.abortReq msgid)).1.fc_aborted).map
      (fun r2 => r2.frq_aborted)) = some true ∧
    (step s (ClientAction.abortReq msgid)).2 =
      [Event.reqError r.frq_rid (requestFailError { r with frq_aborted := true }
        (abortError none))] ∧
    (requestFailError { r with frq_aborted := true } (abortError none)).name =
      "RequestAbortedError" ∧
    ((step (step s (ClientAction.abortReq msgid)).1 (ClientAction.onMessage m)).2 = [] ∧
     (alookup msgid (step (step s (ClientAction.abortReq msgid)).1
        (ClientAction.onMessage m)).1.fc_aborted).map (fun r2 => r2.frq_nignored) =
       some (r.frq_nignored + 1) ∧
     (step (step s (ClientAction.abortReq msgid)).1
        (ClientAction.onMessage m)).1.fc_pending =
       (step s (ClientAction.abortReq msgid)).1.fc_pending) ∧
    ((step (step s (ClientAction.abortReq msgid)).1
        (ClientAction.onMessage ⟨msgid, MsgBody.done d⟩)).2 = [] ∧
     alookup msgid (step (step s (ClientAction.abortReq msgid)).1
        (ClientAction.onMessage ⟨msgid, MsgBody.done d⟩)).1.fc_aborted = none) := by
  have hw := pending_entry_wf hwf hlk
  have hred1 : step s (ClientAction.abortReq msgid) =
      ({ s with
          fc_pending := aremove r.frq_msgid s.fc_pending
          fc_aborted := aset r.frq_msgid
            { r with
              frq_aborted := true
              frq_error := some (requestFailError { r with frq_aborted := true }
                (abortError none)) }
            (aset r.frq_msgid { r with frq_aborted := true } s.fc_aborted)
          fc_nrpc_done := s.fc_nrpc_done + 1 },
        [Event.reqError r.frq_rid
          (requestFailError { r with frq_aborted := true } (abortError none))]) := by
    simp only [step, hlk]
    exact requestAbort_eq s r none hw.2.2.2.2.2.2
  rw [hred1]
  have h1 : alookup msgid (aremove r.frq_msgid s.fc_pending) = none := by
    rw [hw.1]
    exact alookup_aremove_self _ _
  have h2 : alookup msgid (aset r.frq_msgid
      { r with
        frq_aborted := true
        frq_error := some (requestFailError { r with frq_aborted := true }
          (abortError none)) }
      (aset r.frq_msgid { r with frq_aborted := true } s.fc_aborted)) =
      some { r with
        frq_aborted := true
        frq_error := some (requestFailError { r with frq_aborted := true }
          (abortError none)) } := by
    rw [hw.1]
    exact alookup_aset_self _ _ _
  refine ⟨h1, by rw [h2]; rfl, rfl, rfl, ?_, ?_⟩
  · cases hb : m.body with
    | done d2 =>
      rw [hb] at hnotend
      simp [isEndMessage] at hnotend
    | data d2 =>
      refine ⟨?_, ?_, ?_⟩
      · simp only [step, hrd, if_true, onMessage, hm, h1, h2, hb]
      · simp only [step, hrd, if_true, onMessage, hm, h1, h2, hb]
        rw [alookup_aset_self]
        rfl
      · simp only [step, hrd, if_true, onMessage, hm, h1, h2, hb]
    | fail e =>
      refine ⟨?_, ?_, ?_⟩
      · simp only [step, hrd, if_true, onMessage, hm, h1, h2, hb]
      · simp only [step, hrd, if_true, onMessage, hm, h1, h2, hb]
        rw [alookup_aset_self]
        rfl
      · simp only [step, hrd, if_true, onMessage, hm, h1, h2, hb]
  · constructor
    · simp only [step, hrd, if_true, onMessage, h1, h2]
    · simp only [step, hrd, if_true, onMessage, h1, h2]
      exact alookup_aremove_self _ _

/-- Witness for C6: abort the pending request with msgid 1, then deliver a
DATA message and an END message for it. -/
theorem c6_abort_semantics_witness :
    let s := (runClient clientInit [ClientAction.rpc "testmethod" ["a"]]).1
    let r : FastRpcRequest := freshRequest 1 1 "testmethod" ["a"]
    let m : FMessage := ⟨1, MsgBody.data ["x"]⟩
    PendingOk s ∧ alookup 1 s.fc_pending = some r ∧ s.tr_reading = true ∧
    m.msgid = 1 ∧ isEndMessage m.body = false ∧
    (alookup 1 (step s (ClientAction.abortReq 1)).1.fc_pending = none ∧
    ((alookup 1 (step s (ClientAction.abortReq 1)).1.fc_aborted).map
      (fun r2 => r2.frq_aborted)) = some true ∧
    (step s (ClientAction.abortReq 1)).2 =
      [Event.reqError r.frq_rid (requestFailError { r with frq_aborted := true }
        (abortError none))] ∧
    (requestFailError { r with frq_aborted := true } (abortError none)).name =
      "RequestAbortedError" ∧
    ((step (step s (ClientAction.abortReq 1)).1 (ClientAction.onMessage m)).2 = [] ∧
     (alookup 1 (step (step s (ClientAction.abortReq 1)).1
        (ClientAction.onMessage m)).1.fc_aborted).map (fun r2 => r2.frq_nignored) =
       some (r.frq_nignored + 1) ∧
     (step (step s (ClientAction.abortReq 1)).1
        (ClientAction.onMessage m)).1.fc_pending =
       (step s (ClientAction.abortReq 1)).1.fc_pending) ∧
    ((step (step s (ClientAction.abortReq 1)).1
        (ClientAction.onMessage ⟨1, MsgBody.done []⟩)).2 = [] ∧
     alookup 1 (step (step s (ClientAction.abortReq 1)).1
        (ClientAction.onMessage ⟨1, MsgBody.done []⟩)).1.fc_aborted = none)) :=
  ⟨by decide, by decide, by decide, by decide, by decide,
   c6_abort_semantics _ 1 _ (by decide) (by decide) (by decide) _ (by decide) (by decide) []⟩
